import Mathlib

/-!
Shallow embedding of a JSON-backed hotel reservation system
(`src/hotel.py`, `src/customer.py`, `src/reservation.py`, `src/storage.py`,
`src/services.py`) together with proofs about its admission logic.

Modelling conventions:
* Python `datetime.date` values are embedded as `PDate` records (year, month,
  day).  Python compares dates lexicographically; on calendar-valid dates this
  agrees with comparing `PDate.toNum` (the `yyyymmdd` numeral), which is the
  order used here.
* JSON documents are the inductive `JValue`; a decoded JSON object is an
  association list `JObj`.
* File contents are `FileContent`: a file can be missing, empty, hold
  syntactically malformed text, or hold a parsed JSON document.
* Python functions that raise (`ValueError`, `KeyError`) are embedded as
  `Option`-returning functions; `none` is the raised exception, which callers
  in `services.py` turn into a failure result.
* `int` fields are embedded as `Int` (unbounded, like Python).
-/

/-- Calendar date, embedding Python `datetime.date`. -/
structure PDate where
  year : Nat
  month : Nat
  day : Nat
deriving DecidableEq, Repr

/-- Numeral `yyyymmdd` of a date; comparing these numerals agrees with
Python's lexicographic date order on calendar-valid dates. -/
def PDate.toNum (d : PDate) : Nat :=
  d.year * 10000 + d.month * 100 + d.day

/-- Boolean strict order on dates (Python `<` on `date`). -/
def PDate.blt (a b : PDate) : Bool :=
  Nat.blt a.toNum b.toNum

/-- Boolean order on dates (Python `<=` on `date`). -/
def PDate.ble (a b : PDate) : Bool :=
  Nat.ble a.toNum b.toNum

/-- Gregorian leap-year test, as in Python's `datetime`. -/
def isLeap (y : Nat) : Bool :=
  (y % 4 == 0 && y % 100 != 0) || y % 400 == 0

/-- Number of days of month `m` in year `y`, as in Python's `datetime`. -/
def daysInMonth (y m : Nat) : Nat :=
  if m == 2 then (if isLeap y then 29 else 28)
  else if m == 4 || m == 6 || m == 9 || m == 11 then 30
  else 31

/-- The range invariant Python's `datetime.date` type guarantees for every
constructed date value (`MINYEAR = 1`, `MAXYEAR = 9999`). -/
def PDate.Valid (d : PDate) : Prop :=
  1 ≤ d.year ∧ d.year ≤ 9999 ∧ 1 ≤ d.month ∧ d.month ≤ 12 ∧
    1 ≤ d.day ∧ d.day ≤ daysInMonth d.year d.month

instance (d : PDate) : Decidable d.Valid := by
  unfold PDate.Valid; infer_instance

/-- ASCII digit test on a character, by code point. -/
def isDigitChar (c : Char) : Bool :=
  Nat.ble 48 c.toNat && Nat.ble c.toNat 57

/-- Whitespace test backing Python's `str.strip` (the ASCII whitespace
characters; the data model stores no exotic Unicode spacing). -/
def isPySpace (c : Char) : Bool :=
  c == ' ' || c == '\t' || c == '\n' || c == '\x0d' || c == '\x0b' || c == '\x0c'

/-- Embedding of Python `str.strip()`: drop whitespace from both ends. -/
def pyStrip (s : String) : String :=
  ⟨((s.data.dropWhile isPySpace).reverse.dropWhile isPySpace).reverse⟩

/-- Embedding of Python's `c in s` membership test for a single character. -/
def pyContainsChar (s : String) (c : Char) : Bool :=
  s.data.contains c

/-- Numeric value of an ASCII digit character. -/
def digitVal (c : Char) : Nat :=
  c.toNat - 48

/-- ASCII digit character of a value below ten. -/
def digitChar (v : Nat) : Char :=
  Char.ofNat (48 + v)

/-- Build a date from parsed numeric components, enforcing the calendar
ranges `datetime.date` enforces (`MINYEAR = 1`; the four-digit year is at
most 9999 by construction).  (`dataclass(slots=True)` pins the code to
Python ≥ 3.10, where `fromisoformat` accepts exactly the extended
`YYYY-MM-DD` format.) -/
def dateOfDigits (y m d : Nat) : Option PDate :=
  if Nat.ble 1 y && Nat.ble 1 m && Nat.ble m 12 && Nat.ble 1 d &&
      Nat.ble d (daysInMonth y m) then
    some ⟨y, m, d⟩
  else none

/-- Embedding of `datetime.date.fromisoformat`: parse a `YYYY-MM-DD` string,
checking the calendar ranges via `dateOfDigits`, and fail (`None` = raised
`ValueError`) on any other shape. -/
def parse_iso_date (s : String) : Option PDate :=
  match s.data with
  | [y1, y2, y3, y4, '-', m1, m2, '-', d1, d2] =>
    if isDigitChar y1 && isDigitChar y2 && isDigitChar y3 && isDigitChar y4 &&
        isDigitChar m1 && isDigitChar m2 && isDigitChar d1 && isDigitChar d2 then
      dateOfDigits
        (((digitVal y1 * 10 + digitVal y2) * 10 + digitVal y3) * 10 + digitVal y4)
        (digitVal m1 * 10 + digitVal m2)
        (digitVal d1 * 10 + digitVal d2)
    else none
  | _ => none

/-- Embedding of `datetime.date.isoformat`: render a date as `YYYY-MM-DD`
(year zero-padded to four digits, month and day to two). -/
def format_iso_date (d : PDate) : String :=
  ⟨[digitChar (d.year / 1000), digitChar (d.year / 100 % 10),
    digitChar (d.year / 10 % 10), digitChar (d.year % 10), '-',
    digitChar (d.month / 10), digitChar (d.month % 10), '-',
    digitChar (d.day / 10), digitChar (d.day % 10)]⟩

/-- Decoded JSON value.  JSON numbers are restricted to integers, the only
numeric shape the data model uses. -/
inductive JValue where
  | null
  | bool (b : Bool)
  | num (n : Int)
  | str (s : String)
  | arr (items : List JValue)
  | obj (fields : List (String × JValue))

/-- A decoded JSON object: an association list from keys to values. -/
abbrev JObj := List (String × JValue)

mutual
/-- Python `repr` of a decoded JSON value (quote escaping inside strings is
elided; no field of the data model stores quotes). -/
def pyRepr : JValue → String
  | .null => "None"
  | .bool b => if b then "True" else "False"
  | .num n => toString n
  | .str s => "'" ++ s ++ "'"
  | .arr items => "[" ++ pyReprList items ++ "]"
  | .obj fields => "\x7b" ++ pyReprFields fields ++ "\x7d"

/-- Comma-separated `repr` of list elements. -/
def pyReprList : List JValue → String
  | [] => ""
  | [x] => pyRepr x
  | x :: y :: xs => pyRepr x ++ ", " ++ pyReprList (y :: xs)

/-- Comma-separated `repr` of object entries. -/
def pyReprFields : List (String × JValue) → String
  | [] => ""
  | [(k, v)] => "'" ++ k ++ "': " ++ pyRepr v
  | (k, v) :: e :: xs => "'" ++ k ++ "': " ++ pyRepr v ++ ", " ++ pyReprFields (e :: xs)
end

/-- Python `str()` of a decoded JSON value: the string itself for strings,
`repr` otherwise. -/
def pyStr : JValue → String
  | .str s => s
  | v => pyRepr v

/-- Value of a nonempty all-digit character list, `none` otherwise. -/
def parseDigits : List Char → Option Nat
  | [] => none
  | cs => go cs 0
where
  /-- Accumulate digit values left to right. -/
  go : List Char → Nat → Option Nat
    | [], acc => some acc
    | c :: cs, acc =>
      if isDigitChar c then go cs (acc * 10 + digitVal c) else none

/-- Python `int()` applied to a decoded JSON value: integers pass through,
booleans become 0/1, strings are parsed as optionally signed decimal numerals
after stripping whitespace (numeric-literal niceties such as underscores are
elided), everything else raises (`none`). -/
def pyInt : JValue → Option Int
  | .num n => some n
  | .bool b => some (if b then 1 else 0)
  | .str s =>
    match (pyStrip s).data with
    | '-' :: ds => (parseDigits ds).map (fun n => -(n : Int))
    | '+' :: ds => (parseDigits ds).map (fun n => (n : Int))
    | ds => (parseDigits ds).map (fun n => (n : Int))
  | _ => none

/-- Hotel entity (`hotel.py`); instances exist only for field values accepted
by the validating constructor `Hotel.make`. -/
structure Hotel where
  hotel_id : String
  name : String
  rooms_total : Int
deriving DecidableEq, Repr

/-- Embedding of the `Hotel` dataclass constructor with its `__post_init__`
validation: blank ids or names and non-positive room counts raise
`ValueError` (`none`). -/
def Hotel.make (hotel_id name : String) (rooms_total : Int) : Option Hotel :=
  if pyStrip hotel_id = "" then none
  else if pyStrip name = "" then none
  else if rooms_total ≤ 0 then none
  else some ⟨hotel_id, name, rooms_total⟩

/-- Embedding of `Hotel.to_dict`. -/
def Hotel.to_dict (h : Hotel) : JObj :=
  [("hotel_id", .str h.hotel_id),
   ("name", .str h.name),
   ("rooms_total", .num h.rooms_total)]

/-- Embedding of `Hotel.from_dict`: key lookups (raising `KeyError` when
missing), Python `str`/`int` coercions, then the validating constructor. -/
def Hotel.from_dict (data : JObj) : Option Hotel :=
  match data.lookup "hotel_id", data.lookup "name", data.lookup "rooms_total" with
  | some hidV, some nameV, some roomsV =>
    match pyInt roomsV with
    | some rooms => Hotel.make (pyStr hidV) (pyStr nameV) rooms
    | none => none
  | _, _, _ => none

/-- Customer entity (`customer.py`). -/
structure Customer where
  customer_id : String
  name : String
  email : String
deriving DecidableEq, Repr

/-- Embedding of the `Customer` dataclass constructor with its
`__post_init__` validation. -/
def Customer.make (customer_id name email : String) : Option Customer :=
  if pyStrip customer_id = "" then none
  else if pyStrip name = "" then none
  else if !(pyContainsChar email '@') || pyStrip email = "" then none
  else some ⟨customer_id, name, email⟩

/-- Embedding of `Customer.to_dict`. -/
def Customer.to_dict (c : Customer) : JObj :=
  [("customer_id", .str c.customer_id),
   ("name", .str c.name),
   ("email", .str c.email)]

/-- Embedding of `Customer.from_dict`. -/
def Customer.from_dict (data : JObj) : Option Customer :=
  match data.lookup "customer_id", data.lookup "name", data.lookup "email" with
  | some cidV, some nameV, some emailV =>
    Customer.make (pyStr cidV) (pyStr nameV) (pyStr emailV)
  | _, _, _ => none

/-- Reservation entity (`reservation.py`). -/
structure Reservation where
  reservation_id : String
  hotel_id : String
  customer_id : String
  check_in : PDate
  check_out : PDate
  rooms : Int
deriving DecidableEq, Repr

/-- Embedding of the `Reservation` dataclass constructor with its
`__post_init__` validation: blank ids, `check_out <= check_in`, and
non-positive room counts raise `ValueError` (`none`). -/
def Reservation.make (reservation_id hotel_id customer_id : String)
    (check_in check_out : PDate) (rooms : Int) : Option Reservation :=
  if pyStrip reservation_id = "" then none
  else if pyStrip hotel_id = "" then none
  else if pyStrip customer_id = "" then none
  else if check_out.ble check_in then none
  else if rooms ≤ 0 then none
  else some ⟨reservation_id, hotel_id, customer_id, check_in, check_out, rooms⟩

/-- Embedding of `Reservation.to_dict`; dates are serialized with
`isoformat`. -/
def Reservation.to_dict (r : Reservation) : JObj :=
  [("reservation_id", .str r.reservation_id),
   ("hotel_id", .str r.hotel_id),
   ("customer_id", .str r.customer_id),
   ("check_in", .str (format_iso_date r.check_in)),
   ("check_out", .str (format_iso_date r.check_out)),
   ("rooms", .num r.rooms)]

/-- Embedding of `Reservation.from_dict`: key lookups, `str` coercion,
`date.fromisoformat` on the date fields, `int` on `rooms`, then the
validating constructor. -/
def Reservation.from_dict (data : JObj) : Option Reservation :=
  match data.lookup "reservation_id", data.lookup "hotel_id", data.lookup "customer_id",
      data.lookup "check_in", data.lookup "check_out", data.lookup "rooms" with
  | some ridV, some hidV, some cidV, some ciV, some coV, some roomsV =>
    match parse_iso_date (pyStr ciV), parse_iso_date (pyStr coV), pyInt roomsV with
    | some check_in, some check_out, some rooms =>
      Reservation.make (pyStr ridV) (pyStr hidV) (pyStr cidV) check_in check_out rooms
    | _, _, _ => none
  | _, _, _, _, _, _ => none

/-- Content of one data file as the storage layer can observe it. -/
inductive FileContent where
  | missing
  | empty
  | malformed
  | content (j : JValue)

/-- The cleaning loop of `read_json_list`: keep the `dict` elements of the
decoded array, in order, dropping (and logging) everything else. -/
def clean_items : List JValue → List JObj
  | [] => []
  | .obj fields :: rest => fields :: clean_items rest
  | _ :: rest => clean_items rest

/-- Embedding of `storage.read_json_list`.  A missing file is first created
by `ensure_file_exists` holding `[]`, so it reads back as an empty array; an
empty or syntactically malformed file, or one whose root is not an array,
degrades to `[]` with a logged diagnostic; array elements that are not
objects are dropped by the cleaning loop.  The function is total: it never
propagates an exception. -/
def read_json_list : FileContent → List JObj
  | .missing => []
  | .empty => []
  | .malformed => []
  | .content (.arr items) => clean_items items
  | .content _ => []

/-- Code-point lexicographic comparison of character lists: Python's `<` on
strings. -/
def strLtChars : List Char → List Char → Bool
  | [], [] => false
  | [], _ :: _ => true
  | _ :: _, [] => false
  | a :: as, b :: bs =>
    if a.toNat < b.toNat then true
    else if b.toNat < a.toNat then false
    else strLtChars as bs

/-- Python's `<` on strings. -/
def pyStrLt (a b : String) : Bool :=
  strLtChars a.data b.data

/-- Stable insertion of an object entry into a key-sorted list, by Python's
string order (code-point lexicographic, as `json.dumps(sort_keys=True)`
uses). -/
def insertFieldSorted (p : String × JValue) : JObj → JObj
  | [] => [p]
  | q :: rest => if pyStrLt q.1 p.1 then q :: insertFieldSorted p rest else p :: q :: rest

/-- Key-sorting of one object, modelling `json.dumps(..., sort_keys=True)`
(the data model nests no objects, so sorting the top-level keys of each
record is the whole effect). -/
def sort_keys (o : JObj) : JObj :=
  o.foldr insertFieldSorted []

/-- Embedding of `storage.write_json_list`: serialize the records (with
sorted keys) as a JSON array and atomically replace the file with it.  The
I/O-failure path (logged, previous content kept) is not modelled; no claim
depends on it. -/
def write_json_list (objs : List JObj) : FileContent :=
  .content (.arr ((objs.map sort_keys).map .obj))

/-- The persisted state of the system: the three data files. -/
structure SysState where
  hotels_file : FileContent
  customers_file : FileContent
  reservations_file : FileContent

/-- Embedding of `services.load_hotels`: read the array and keep the records
`Hotel.from_dict` accepts, skipping (and logging) invalid entries. -/
def load_hotels (st : SysState) : List Hotel :=
  (read_json_list st.hotels_file).filterMap Hotel.from_dict

/-- Embedding of `services.save_hotels`. -/
def save_hotels (hotels : List Hotel) (st : SysState) : SysState :=
  { st with hotels_file := write_json_list (hotels.map Hotel.to_dict) }

/-- Embedding of `services.load_customers`. -/
def load_customers (st : SysState) : List Customer :=
  (read_json_list st.customers_file).filterMap Customer.from_dict

/-- Embedding of `services.save_customers`. -/
def save_customers (customers : List Customer) (st : SysState) : SysState :=
  { st with customers_file := write_json_list (customers.map Customer.to_dict) }

/-- Embedding of `services.load_reservations`. -/
def load_reservations (st : SysState) : List Reservation :=
  (read_json_list st.reservations_file).filterMap Reservation.from_dict

/-- Embedding of `services.save_reservations`. -/
def save_reservations (reservations : List Reservation) (st : SysState) : SysState :=
  { st with reservations_file := write_json_list (reservations.map Reservation.to_dict) }

/-- Embedding of `services._find_hotel`: first hotel with the given id. -/
def find_hotel (hotels : List Hotel) (hotel_id : String) : Option Hotel :=
  hotels.find? (fun h => h.hotel_id == hotel_id)

/-- Embedding of `services._find_customer`. -/
def find_customer (customers : List Customer) (customer_id : String) : Option Customer :=
  customers.find? (fun c => c.customer_id == customer_id)

/-- Embedding of `services._find_reservation`. -/
def find_reservation (reservations : List Reservation) (reservation_id : String) :
    Option Reservation :=
  reservations.find? (fun r => r.reservation_id == reservation_id)

/-- Embedding of `services.create_hotel`: duplicate-id check, validating
construction, then append-and-persist.  `false` with an unchanged state is
the logged failure path. -/
def create_hotel (hotel_id name : String) (rooms_total : Int) (st : SysState) :
    Bool × SysState :=
  let hotels := load_hotels st
  if (find_hotel hotels hotel_id).isSome then (false, st)
  else
    match Hotel.make hotel_id name rooms_total with
    | none => (false, st)
    | some hotel => (true, save_hotels (hotels ++ [hotel]) st)

/-- Embedding of `services.delete_hotel`: filter out the id and fail when the
length is unchanged. -/
def delete_hotel (hotel_id : String) (st : SysState) : Bool × SysState :=
  let hotels := load_hotels st
  let remaining := hotels.filter (fun h => h.hotel_id != hotel_id)
  if remaining.length = hotels.length then (false, st)
  else (true, save_hotels remaining st)

/-- Embedding of `services.modify_hotel`: locate the hotel, rebuild a fully
validated replacement from current-or-override fields, substitute it, and
persist. -/
def modify_hotel (hotel_id : String) (name : Option String)
    (rooms_total : Option Int) (st : SysState) : Bool × SysState :=
  let hotels := load_hotels st
  match find_hotel hotels hotel_id with
  | none => (false, st)
  | some hotel =>
    let new_name := name.getD hotel.name
    let new_rooms := rooms_total.getD hotel.rooms_total
    match Hotel.make hotel.hotel_id new_name new_rooms with
    | none => (false, st)
    | some updated =>
      (true, save_hotels
        (hotels.map (fun h => if h.hotel_id == hotel_id then updated else h)) st)

/-- Embedding of `services.create_customer`. -/
def create_customer (customer_id name email : String) (st : SysState) :
    Bool × SysState :=
  let customers := load_customers st
  if (find_customer customers customer_id).isSome then (false, st)
  else
    match Customer.make customer_id name email with
    | none => (false, st)
    | some customer => (true, save_customers (customers ++ [customer]) st)

/-- Embedding of `services.delete_customer`. -/
def delete_customer (customer_id : String) (st : SysState) : Bool × SysState :=
  let customers := load_customers st
  let remaining := customers.filter (fun c => c.customer_id != customer_id)
  if remaining.length = customers.length then (false, st)
  else (true, save_customers remaining st)

/-- Embedding of `services.modify_customer`. -/
def modify_customer (customer_id : String) (name : Option String)
    (email : Option String) (st : SysState) : Bool × SysState :=
  let customers := load_customers st
  match find_customer customers customer_id with
  | none => (false, st)
  | some customer =>
    let new_name := name.getD customer.name
    let new_email := email.getD customer.email
    match Customer.make customer.customer_id new_name new_email with
    | none => (false, st)
    | some updated =>
      (true, save_customers
        (customers.map (fun c => if c.customer_id == customer_id then updated else c)) st)

/-- Embedding of `services._overlaps`: two half-open date ranges
`[a_start, a_end)` and `[b_start, b_end)` overlap iff
`a_start < b_end and b_start < a_end`. -/
def overlaps (a_start a_end b_start b_end : PDate) : Bool :=
  a_start.blt b_end && b_start.blt a_end

/-- Embedding of `services._rooms_booked_for_hotel`: the accumulation loop
summing `rooms` over reservations of the hotel whose range overlaps the
requested one. -/
def rooms_booked_for_hotel (reservations : List Reservation) (hotel_id : String)
    (check_in check_out : PDate) : Int :=
  match reservations with
  | [] => 0
  | res :: rest =>
    (if res.hotel_id == hotel_id && overlaps res.check_in res.check_out check_in check_out
      then res.rooms else 0) +
      rooms_booked_for_hotel rest hotel_id check_in check_out

/-- Outcome of `services.create_reservation`; the failure constructors record
which diagnostic the code logs before returning `False`, and
`insufficient_capacity` carries the requested and available counts the
message reports. -/
inductive CreateResult where
  | ok
  | duplicate_id
  | hotel_not_found
  | customer_not_found
  | invalid_entity
  | insufficient_capacity (requested : Int) (available : Int)
deriving DecidableEq, Repr

/-- Embedding of `services.create_reservation`: load all three collections,
check duplicate id, hotel existence, customer existence, construct the
validated reservation, check capacity over the pre-insertion set, then
append and persist. -/
def create_reservation (reservation_id hotel_id customer_id : String)
    (check_in check_out : PDate) (rooms : Int) (st : SysState) :
    CreateResult × SysState :=
  let hotels := load_hotels st
  let customers := load_customers st
  let reservations := load_reservations st
  if (find_reservation reservations reservation_id).isSome then (.duplicate_id, st)
  else
    match find_hotel hotels hotel_id with
    | none => (.hotel_not_found, st)
    | some hotel =>
      match find_customer customers customer_id with
      | none => (.customer_not_found, st)
      | some _ =>
        match Reservation.make reservation_id hotel_id customer_id
            check_in check_out rooms with
        | none => (.invalid_entity, st)
        | some reservation =>
          let already_booked :=
            rooms_booked_for_hotel reservations hotel_id check_in check_out
          let available := hotel.rooms_total - already_booked
          if reservation.rooms > available then
            (.insufficient_capacity reservation.rooms available, st)
          else
            (.ok, save_reservations (reservations ++ [reservation]) st)

/-- Embedding of `services.cancel_reservation`: filter out the id, fail when
nothing matched, otherwise persist the filtered set. -/
def cancel_reservation (reservation_id : String) (st : SysState) : Bool × SysState :=
  let reservations := load_reservations st
  let remaining := reservations.filter (fun r => r.reservation_id != reservation_id)
  if remaining.length = reservations.length then (false, st)
  else (true, save_reservations remaining st)

/-- A reservation is active at an instant `t` when its half-open stay
interval `[check_in, check_out)` contains `t` (spec-side notion used by the
capacity invariant). -/
def active_at (r : Reservation) (t : PDate) : Bool :=
  r.check_in.ble t && t.blt r.check_out

/-- Rooms committed for a hotel at one instant: the sum of `rooms` over the
reservations of that hotel active at `t` (spec-side notion used by the
capacity invariant). -/
def rooms_active_at (reservations : List Reservation) (hotel_id : String)
    (t : PDate) : Int :=
  ((reservations.filter (fun r => r.hotel_id == hotel_id && active_at r t)).map
    Reservation.rooms).sum

/-- Every record of the hotels file is accepted by `Hotel.from_dict`. -/
def hotels_store_wf (fc : FileContent) : Prop :=
  ∀ o ∈ read_json_list fc, (Hotel.from_dict o).isSome = true

/-- Every record of the customers file is accepted by `Customer.from_dict`. -/
def customers_store_wf (fc : FileContent) : Prop :=
  ∀ o ∈ read_json_list fc, (Customer.from_dict o).isSome = true

/-- Every record of the reservations file is accepted by
`Reservation.from_dict`. -/
def reservations_store_wf (fc : FileContent) : Prop :=
  ∀ o ∈ read_json_list fc, (Reservation.from_dict o).isSome = true

/-- The validation facts `Hotel.make` guarantees for every constructed
value. -/
def Hotel.Wf (h : Hotel) : Prop :=
  pyStrip h.hotel_id ≠ "" ∧ pyStrip h.name ≠ "" ∧ 0 < h.rooms_total

/-- The validation facts `Customer.make` guarantees for every constructed
value. -/
def Customer.Wf (c : Customer) : Prop :=
  pyStrip c.customer_id ≠ "" ∧ pyStrip c.name ≠ "" ∧
    pyContainsChar c.email '@' = true ∧ pyStrip c.email ≠ ""

/-- The validation facts `Reservation.make` guarantees for every constructed
value, together with the calendar validity Python's `date` type gives the
two date fields. -/
def Reservation.Wf (r : Reservation) : Prop :=
  pyStrip r.reservation_id ≠ "" ∧ pyStrip r.hotel_id ≠ "" ∧
    pyStrip r.customer_id ≠ "" ∧ r.check_in.toNum < r.check_out.toNum ∧
    0 < r.rooms ∧ r.check_in.Valid ∧ r.check_out.Valid

/-- Example state with one hotel and one customer and no reservations, used
to instantiate the theorems on concrete data. -/
def stBase : SysState :=
  { hotels_file := write_json_list [Hotel.to_dict ⟨"H1", "Plaza", 10⟩],
    customers_file := write_json_list [Customer.to_dict ⟨"C1", "Ana", "ana@mail.mx"⟩],
    reservations_file := write_json_list [] }

/-- `stBase` after a successful creation of reservation `R1` for three rooms
over `[2026-03-01, 2026-03-05)`. -/
def stWithR1 : SysState :=
  (create_reservation "R1" "H1" "C1" ⟨2026, 3, 1⟩ ⟨2026, 3, 5⟩ 3 stBase).2

/-! ## Character and date lemmas -/

theorem isDigitChar_iff {c : Char} :
    isDigitChar c = true ↔ 48 ≤ c.toNat ∧ c.toNat ≤ 57 := by
  simp [isDigitChar, Nat.ble_eq]

theorem digitVal_le_nine {c : Char} (h : isDigitChar c = true) : digitVal c ≤ 9 := by
  obtain ⟨h1, h2⟩ := isDigitChar_iff.mp h
  unfold digitVal
  omega

theorem digitChar_digitVal {c : Char} (h : isDigitChar c = true) :
    digitChar (digitVal c) = c := by
  obtain ⟨h1, h2⟩ := isDigitChar_iff.mp h
  unfold digitChar digitVal
  have : 48 + (c.toNat - 48) = c.toNat := by omega
  rw [this, Char.ofNat_toNat]

theorem toNat_digitChar {v : Nat} (h : v ≤ 9) : (digitChar v).toNat = 48 + v := by
  interval_cases v <;> decide

theorem isDigitChar_digitChar {v : Nat} (h : v ≤ 9) :
    isDigitChar (digitChar v) = true := by
  interval_cases v <;> decide

theorem digitVal_digitChar {v : Nat} (h : v ≤ 9) : digitVal (digitChar v) = v := by
  interval_cases v <;> decide

theorem daysInMonth_le_31 (y m : Nat) : daysInMonth y m ≤ 31 := by
  unfold daysInMonth
  split <;> [split <;> omega; split <;> omega]

theorem dateOfDigits_eq_some {y m d : Nat} {dd : PDate} :
    dateOfDigits y m d = some dd ↔
      1 ≤ y ∧ 1 ≤ m ∧ m ≤ 12 ∧ 1 ≤ d ∧ d ≤ daysInMonth y m ∧ dd = ⟨y, m, d⟩ := by
  unfold dateOfDigits
  rw [Option.ite_none_right_eq_some]
  constructor
  · rintro ⟨hc, h⟩
    simp only [Bool.and_eq_true, Nat.ble_eq] at hc
    exact ⟨hc.1.1.1.1, hc.1.1.1.2, hc.1.1.2, hc.1.2, hc.2, (Option.some_inj.mp h).symm⟩
  · rintro ⟨h1, h2, h3, h4, h5, h6⟩
    refine ⟨?_, by rw [h6]⟩
    simp only [Bool.and_eq_true, Nat.ble_eq]
    exact ⟨⟨⟨⟨h1, h2⟩, h3⟩, h4⟩, h5⟩

theorem parse_iso_date_format {s : String} {d : PDate} (h : parse_iso_date s = some d) :
    format_iso_date d = s := by
  obtain ⟨sdata⟩ := s
  unfold parse_iso_date at h
  split at h
  · next y1 y2 y3 y4 m1 m2 d1 d2 heq =>
    split at h
    · next hdig =>
      rw [dateOfDigits_eq_some] at h
      obtain ⟨hy, hm1', hm2', hd1', hd2', hdd⟩ := h
      subst hdd
      simp only [Bool.and_eq_true] at hdig
      obtain ⟨⟨⟨⟨⟨⟨⟨hy1, hy2⟩, hy3⟩, hy4⟩, hm1⟩, hm2⟩, hd1⟩, hd2⟩ := hdig
      have vy1 := digitVal_le_nine hy1
      have vy2 := digitVal_le_nine hy2
      have vy3 := digitVal_le_nine hy3
      have vy4 := digitVal_le_nine hy4
      have vm1 := digitVal_le_nine hm1
      have vm2 := digitVal_le_nine hm2
      have vd1 := digitVal_le_nine hd1
      have vd2 := digitVal_le_nine hd2
      have heq2 : sdata = [y1, y2, y3, y4, '-', m1, m2, '-', d1, d2] := heq
      subst heq2
      unfold format_iso_date
      refine congrArg String.mk ?_
      have ey1 : (((digitVal y1 * 10 + digitVal y2) * 10 + digitVal y3) * 10 + digitVal y4) / 1000 = digitVal y1 := by omega
      have ey2 : (((digitVal y1 * 10 + digitVal y2) * 10 + digitVal y3) * 10 + digitVal y4) / 100 % 10 = digitVal y2 := by omega
      have ey3 : (((digitVal y1 * 10 + digitVal y2) * 10 + digitVal y3) * 10 + digitVal y4) / 10 % 10 = digitVal y3 := by omega
      have ey4 : (((digitVal y1 * 10 + digitVal y2) * 10 + digitVal y3) * 10 + digitVal y4) % 10 = digitVal y4 := by omega
      have em1 : (digitVal m1 * 10 + digitVal m2) / 10 = digitVal m1 := by omega
      have em2 : (digitVal m1 * 10 + digitVal m2) % 10 = digitVal m2 := by omega
      have ed1 : (digitVal d1 * 10 + digitVal d2) / 10 = digitVal d1 := by omega
      have ed2 : (digitVal d1 * 10 + digitVal d2) % 10 = digitVal d2 := by omega
      rw [ey1, ey2, ey3, ey4, em1, em2, ed1, ed2,
        digitChar_digitVal hy1, digitChar_digitVal hy2, digitChar_digitVal hy3,
        digitChar_digitVal hy4, digitChar_digitVal hm1, digitChar_digitVal hm2,
        digitChar_digitVal hd1, digitChar_digitVal hd2]
    · exact absurd h (by simp)
  · exact absurd h (by simp)

theorem parse_iso_date_valid {s : String} {d : PDate} (h : parse_iso_date s = some d) :
    d.Valid := by
  unfold parse_iso_date at h
  split at h
  · next y1 y2 y3 y4 m1 m2 d1 d2 heq =>
    split at h
    · next hdig =>
      simp only [Bool.and_eq_true] at hdig
      obtain ⟨⟨⟨⟨⟨⟨⟨hy1, hy2⟩, hy3⟩, hy4⟩, hm1⟩, hm2⟩, hd1⟩, hd2⟩ := hdig
      have vy1 := digitVal_le_nine hy1
      have vy2 := digitVal_le_nine hy2
      have vy3 := digitVal_le_nine hy3
      have vy4 := digitVal_le_nine hy4
      rw [dateOfDigits_eq_some] at h
      obtain ⟨h1, h2, h3, h4, h5, h6⟩ := h
      subst h6
      simp only [PDate.Valid]
      refine ⟨h1, ?_, h2, h3, h4, h5⟩
      omega
    · exact absurd h (by simp)
  · exact absurd h (by simp)

theorem format_iso_date_parse {d : PDate} (h : d.Valid) :
    parse_iso_date (format_iso_date d) = some d := by
  obtain ⟨h1, h2, h3, h4, h5, h6⟩ := h
  have hd31 : d.day ≤ 31 := le_trans h6 (daysInMonth_le_31 _ _)
  have by1 : d.year / 1000 ≤ 9 := by omega
  have by2 : d.year / 100 % 10 ≤ 9 := by omega
  have by3 : d.year / 10 % 10 ≤ 9 := by omega
  have by4 : d.year % 10 ≤ 9 := by omega
  have bm1 : d.month / 10 ≤ 9 := by omega
  have bm2 : d.month % 10 ≤ 9 := by omega
  have bd1 : d.day / 10 ≤ 9 := by omega
  have bd2 : d.day % 10 ≤ 9 := by omega
  have step : parse_iso_date (format_iso_date d) =
      (if isDigitChar (digitChar (d.year / 1000)) && isDigitChar (digitChar (d.year / 100 % 10)) &&
          isDigitChar (digitChar (d.year / 10 % 10)) && isDigitChar (digitChar (d.year % 10)) &&
          isDigitChar (digitChar (d.month / 10)) && isDigitChar (digitChar (d.month % 10)) &&
          isDigitChar (digitChar (d.day / 10)) && isDigitChar (digitChar (d.day % 10)) then
        dateOfDigits
          (((digitVal (digitChar (d.year / 1000)) * 10 + digitVal (digitChar (d.year / 100 % 10))) * 10 +
              digitVal (digitChar (d.year / 10 % 10))) * 10 + digitVal (digitChar (d.year % 10)))
          (digitVal (digitChar (d.month / 10)) * 10 + digitVal (digitChar (d.month % 10)))
          (digitVal (digitChar (d.day / 10)) * 10 + digitVal (digitChar (d.day % 10)))
      else none) := rfl
  rw [step, isDigitChar_digitChar by1, isDigitChar_digitChar by2, isDigitChar_digitChar by3,
    isDigitChar_digitChar by4, isDigitChar_digitChar bm1, isDigitChar_digitChar bm2,
    isDigitChar_digitChar bd1, isDigitChar_digitChar bd2]
  simp only [Bool.and_self, if_true]
  rw [digitVal_digitChar by1, digitVal_digitChar by2, digitVal_digitChar by3,
    digitVal_digitChar by4, digitVal_digitChar bm1, digitVal_digitChar bm2,
    digitVal_digitChar bd1, digitVal_digitChar bd2]
  have ey : ((d.year / 1000 * 10 + d.year / 100 % 10) * 10 + d.year / 10 % 10) * 10 + d.year % 10 = d.year := by omega
  have em : d.month / 10 * 10 + d.month % 10 = d.month := by omega
  have ed : d.day / 10 * 10 + d.day % 10 = d.day := by omega
  rw [ey, em, ed]
  exact dateOfDigits_eq_some.mpr ⟨h1, h3, h4, h5, h6, rfl⟩

/-! ## Entity constructor and serialization lemmas -/

theorem hotel_make_eq_some {a b : String} {c : Int} {h : Hotel} :
    Hotel.make a b c = some h ↔
      pyStrip a ≠ "" ∧ pyStrip b ≠ "" ∧ 0 < c ∧ h = ⟨a, b, c⟩ := by
  constructor
  · intro hh
    unfold Hotel.make at hh
    split_ifs at hh with h1 h2 h3
    cases hh
    exact ⟨h1, h2, by omega, rfl⟩
  · rintro ⟨n1, n2, n3, rfl⟩
    unfold Hotel.make
    rw [if_neg n1, if_neg n2, if_neg (by omega : ¬ (c ≤ 0))]

theorem customer_make_eq_some {a b c : String} {e : Customer} :
    Customer.make a b c = some e ↔
      pyStrip a ≠ "" ∧ pyStrip b ≠ "" ∧
        pyContainsChar c '@' = true ∧ pyStrip c ≠ "" ∧ e = ⟨a, b, c⟩ := by
  constructor
  · intro hh
    unfold Customer.make at hh
    split_ifs at hh with h1 h2 h3
    cases hh
    simp only [Bool.or_eq_true, Bool.not_eq_true', decide_eq_true_eq, not_or,
      Bool.not_eq_false] at h3
    exact ⟨h1, h2, h3.1, h3.2, rfl⟩
  · rintro ⟨n1, n2, n3, n4, rfl⟩
    unfold Customer.make
    rw [if_neg n1, if_neg n2, if_neg (by simp [n3, n4])]

theorem reservation_make_eq_some {a b c : String} {ci co : PDate} {n : Int}
    {r : Reservation} :
    Reservation.make a b c ci co n = some r ↔
      pyStrip a ≠ "" ∧ pyStrip b ≠ "" ∧ pyStrip c ≠ "" ∧
        ci.toNum < co.toNum ∧ 0 < n ∧ r = ⟨a, b, c, ci, co, n⟩ := by
  constructor
  · intro hh
    unfold Reservation.make at hh
    split_ifs at hh with h1 h2 h3 h4 h5
    cases hh
    simp only [PDate.ble, Bool.not_eq_true, Nat.ble, Nat.ble_eq] at h4
    have h4' : ¬ (co.toNum ≤ ci.toNum) := by
      intro hc
      exact h4 (by simpa [PDate.ble, Nat.ble_eq] using hc)
    exact ⟨h1, h2, h3, by omega, by omega, rfl⟩
  · rintro ⟨n1, n2, n3, n4, n5, rfl⟩
    unfold Reservation.make
    have hble : ¬ (PDate.ble co ci = true) := by
      simp only [PDate.ble, Nat.ble_eq]
      omega
    rw [if_neg n1, if_neg n2, if_neg n3, if_neg hble, if_neg (by omega : ¬ (n ≤ 0))]

theorem hotel_sorted_to_dict (h : Hotel) :
    sort_keys (Hotel.to_dict h) =
      [("hotel_id", .str h.hotel_id), ("name", .str h.name),
       ("rooms_total", .num h.rooms_total)] := rfl

theorem customer_sorted_to_dict (c : Customer) :
    sort_keys (Customer.to_dict c) =
      [("customer_id", .str c.customer_id), ("email", .str c.email),
       ("name", .str c.name)] := rfl

theorem reservation_sorted_to_dict (r : Reservation) :
    sort_keys (Reservation.to_dict r) =
      [("check_in", .str (format_iso_date r.check_in)),
       ("check_out", .str (format_iso_date r.check_out)),
       ("customer_id", .str r.customer_id),
       ("hotel_id", .str r.hotel_id),
       ("reservation_id", .str r.reservation_id),
       ("rooms", .num r.rooms)] := rfl

theorem hotel_from_to (h : Hotel) (hw : h.Wf) :
    Hotel.from_dict (sort_keys (Hotel.to_dict h)) = some h := by
  rw [hotel_sorted_to_dict]
  show Hotel.make h.hotel_id h.name h.rooms_total = some h
  exact hotel_make_eq_some.mpr ⟨hw.1, hw.2.1, hw.2.2, rfl⟩

theorem reservation_from_to (r : Reservation) (hw : r.Wf) :
    Reservation.from_dict (sort_keys (Reservation.to_dict r)) = some r := by
  obtain ⟨h1, h2, h3, h4, h5, hci, hco⟩ := hw
  have step : Reservation.from_dict (sort_keys (Reservation.to_dict r)) =
      (match parse_iso_date (format_iso_date r.check_in),
          parse_iso_date (format_iso_date r.check_out), (some r.rooms : Option Int) with
        | some check_in, some check_out, some rooms =>
          Reservation.make r.reservation_id r.hotel_id r.customer_id check_in check_out rooms
        | _, _, _ => none) := rfl
  rw [step, format_iso_date_parse hci, format_iso_date_parse hco]
  exact reservation_make_eq_some.mpr ⟨h1, h2, h3, h4, h5, rfl⟩

theorem customer_from_to (c : Customer) (hw : c.Wf) :
    Customer.from_dict (sort_keys (Customer.to_dict c)) = some c := by
  rw [customer_sorted_to_dict]
  show Customer.make c.customer_id c.name c.email = some c
  exact customer_make_eq_some.mpr ⟨hw.1, hw.2.1, hw.2.2.1, hw.2.2.2, rfl⟩

theorem hotel_from_dict_wf {o : JObj} {h : Hotel}
    (hd : Hotel.from_dict o = some h) : h.Wf := by
  unfold Hotel.from_dict at hd
  split at hd
  · split at hd
    · obtain ⟨h1, h2, h3, rfl⟩ := hotel_make_eq_some.mp hd
      exact ⟨h1, h2, h3⟩
    · cases hd
  · cases hd

theorem customer_from_dict_wf {o : JObj} {c : Customer}
    (hd : Customer.from_dict o = some c) : c.Wf := by
  unfold Customer.from_dict at hd
  split at hd
  · obtain ⟨h1, h2, h3, h4, rfl⟩ := customer_make_eq_some.mp hd
    exact ⟨h1, h2, h3, h4⟩
  · cases hd

theorem reservation_from_dict_wf {o : JObj} {r : Reservation}
    (hd : Reservation.from_dict o = some r) : r.Wf := by
  unfold Reservation.from_dict at hd
  split at hd
  · split at hd
    · next ci co n hci hco hn =>
      obtain ⟨h1, h2, h3, h4, h5, rfl⟩ := reservation_make_eq_some.mp hd
      exact ⟨h1, h2, h3, h4, h5, parse_iso_date_valid hci, parse_iso_date_valid hco⟩
    · cases hd
  · cases hd

/-! ## Storage round-trip lemmas -/

theorem clean_items_map_obj (objs : List JObj) :
    clean_items (objs.map JValue.obj) = objs := by
  induction objs with
  | nil => rfl
  | cons o rest ih => simp [clean_items, ih]

theorem read_write_json (objs : List JObj) :
    read_json_list (write_json_list objs) = objs.map sort_keys := by
  unfold write_json_list read_json_list
  exact clean_items_map_obj _

theorem load_hotels_save (hs : List Hotel) (st : SysState)
    (hw : ∀ h ∈ hs, h.Wf) :
    load_hotels (save_hotels hs st) = hs := by
  show (read_json_list (write_json_list (hs.map Hotel.to_dict))).filterMap
    Hotel.from_dict = hs
  rw [read_write_json, List.map_map, List.filterMap_map]
  induction hs with
  | nil => rfl
  | cons h rest ih =>
    rw [List.filterMap_cons]
    have hfh : (Hotel.from_dict ∘ (sort_keys ∘ Hotel.to_dict)) h = some h :=
      hotel_from_to h (hw h (List.mem_cons_self _ _))
    rw [hfh, ih (fun x hx => hw x (List.mem_cons_of_mem _ hx))]

theorem load_customers_save (cs : List Customer) (st : SysState)
    (hw : ∀ c ∈ cs, c.Wf) :
    load_customers (save_customers cs st) = cs := by
  show (read_json_list (write_json_list (cs.map Customer.to_dict))).filterMap
    Customer.from_dict = cs
  rw [read_write_json, List.map_map, List.filterMap_map]
  induction cs with
  | nil => rfl
  | cons c rest ih =>
    rw [List.filterMap_cons]
    have hfc : (Customer.from_dict ∘ (sort_keys ∘ Customer.to_dict)) c = some c :=
      customer_from_to c (hw c (List.mem_cons_self _ _))
    rw [hfc, ih (fun x hx => hw x (List.mem_cons_of_mem _ hx))]

theorem load_reservations_save (rs : List Reservation) (st : SysState)
    (hw : ∀ r ∈ rs, r.Wf) :
    load_reservations (save_reservations rs st) = rs := by
  show (read_json_list (write_json_list (rs.map Reservation.to_dict))).filterMap
    Reservation.from_dict = rs
  rw [read_write_json, List.map_map, List.filterMap_map]
  induction rs with
  | nil => rfl
  | cons r rest ih =>
    rw [List.filterMap_cons]
    have hfr : (Reservation.from_dict ∘ (sort_keys ∘ Reservation.to_dict)) r = some r :=
      reservation_from_to r (hw r (List.mem_cons_self _ _))
    rw [hfr, ih (fun x hx => hw x (List.mem_cons_of_mem _ hx))]

theorem load_hotels_wf (st : SysState) : ∀ h ∈ load_hotels st, h.Wf := by
  intro h hm
  obtain ⟨o, _, ho⟩ := List.mem_filterMap.mp hm
  exact hotel_from_dict_wf ho

theorem load_customers_wf (st : SysState) : ∀ c ∈ load_customers st, c.Wf := by
  intro c hm
  obtain ⟨o, _, ho⟩ := List.mem_filterMap.mp hm
  exact customer_from_dict_wf ho

theorem load_reservations_wf (st : SysState) : ∀ r ∈ load_reservations st, r.Wf := by
  intro r hm
  obtain ⟨o, _, ho⟩ := List.mem_filterMap.mp hm
  exact reservation_from_dict_wf ho

/-! ## Service-layer unfolding lemmas (zeta-reduced forms of the operations) -/

theorem create_hotel_eq (hid nm : String) (rt : Int) (st : SysState) :
    create_hotel hid nm rt st =
      (if (find_hotel (load_hotels st) hid).isSome then (false, st)
       else
         match Hotel.make hid nm rt with
         | none => (false, st)
         | some hotel => (true, save_hotels (load_hotels st ++ [hotel]) st)) := rfl

theorem delete_hotel_eq (hid : String) (st : SysState) :
    delete_hotel hid st =
      (if ((load_hotels st).filter (fun h => h.hotel_id != hid)).length =
          (load_hotels st).length then (false, st)
       else
         (true, save_hotels ((load_hotels st).filter (fun h => h.hotel_id != hid)) st)) := rfl

theorem modify_hotel_eq (hid : String) (nm : Option String) (rt : Option Int)
    (st : SysState) :
    modify_hotel hid nm rt st =
      (match find_hotel (load_hotels st) hid with
       | none => (false, st)
       | some hotel =>
         match Hotel.make hotel.hotel_id (nm.getD hotel.name) (rt.getD hotel.rooms_total) with
         | none => (false, st)
         | some updated =>
           (true, save_hotels
             ((load_hotels st).map (fun h => if h.hotel_id == hid then updated else h)) st)) := rfl

theorem create_customer_eq (cid nm em : String) (st : SysState) :
    create_customer cid nm em st =
      (if (find_customer (load_customers st) cid).isSome then (false, st)
       else
         match Customer.make cid nm em with
         | none => (false, st)
         | some customer => (true, save_customers (load_customers st ++ [customer]) st)) := rfl

theorem delete_customer_eq (cid : String) (st : SysState) :
    delete_customer cid st =
      (if ((load_customers st).filter (fun c => c.customer_id != cid)).length =
          (load_customers st).length then (false, st)
       else
         (true, save_customers
           ((load_customers st).filter (fun c => c.customer_id != cid)) st)) := rfl

theorem modify_customer_eq (cid : String) (nm em : Option String) (st : SysState) :
    modify_customer cid nm em st =
      (match find_customer (load_customers st) cid with
       | none => (false, st)
       | some customer =>
         match Customer.make customer.customer_id (nm.getD customer.name)
             (em.getD customer.email) with
         | none => (false, st)
         | some updated =>
           (true, save_customers
             ((load_customers st).map
               (fun c => if c.customer_id == cid then updated else c)) st)) := rfl

theorem create_reservation_eq (rid hid cid : String) (ci co : PDate) (n : Int)
    (st : SysState) :
    create_reservation rid hid cid ci co n st =
      (if (find_reservation (load_reservations st) rid).isSome then (.duplicate_id, st)
       else
         match find_hotel (load_hotels st) hid with
         | none => (.hotel_not_found, st)
         | some hotel =>
           match find_customer (load_customers st) cid with
           | none => (.customer_not_found, st)
           | some _ =>
             match Reservation.make rid hid cid ci co n with
             | none => (.invalid_entity, st)
             | some reservation =>
               if reservation.rooms >
                   hotel.rooms_total -
                     rooms_booked_for_hotel (load_reservations st) hid ci co then
                 (.insufficient_capacity reservation.rooms
                   (hotel.rooms_total -
                     rooms_booked_for_hotel (load_reservations st) hid ci co), st)
               else
                 (.ok, save_reservations (load_reservations st ++ [reservation]) st)) := rfl

theorem cancel_reservation_eq (rid : String) (st : SysState) :
    cancel_reservation rid st =
      (if ((load_reservations st).filter (fun r => r.reservation_id != rid)).length =
          (load_reservations st).length then (false, st)
       else
         (true, save_reservations
           ((load_reservations st).filter (fun r => r.reservation_id != rid)) st)) := rfl

/-! ## Generic list facts -/

theorem length_filter_eq_iff {α : Type} (l : List α) (p : α → Bool) :
    (l.filter p).length = l.length ↔ ∀ a ∈ l, p a = true := by
  constructor
  · intro h
    rw [← List.filter_eq_self]
    exact (List.filter_sublist l).eq_of_length h
  · intro h
    rw [List.filter_eq_self.mpr h]

/-! ## Claim theorems -/

/-- C2: the overlap predicate on two half-open date intervals
`[a_start, a_end)` and `[b_start, b_end)` returns true iff
`a_start < b_end` and `b_start < a_end`; it is symmetric in the two
intervals; `[2026-03-01, 2026-03-05)` does not overlap
`[2026-03-05, 2026-03-08)`, while `[2026-03-01, 2026-03-05)` does overlap
`[2026-03-04, 2026-03-06)`. -/
theorem C2_overlap_predicate :
    (∀ a_start a_end b_start b_end : PDate,
        overlaps a_start a_end b_start b_end = true ↔
          a_start.toNum < b_end.toNum ∧ b_start.toNum < a_end.toNum) ∧
    (∀ a_start a_end b_start b_end : PDate,
        overlaps a_start a_end b_start b_end = overlaps b_start b_end a_start a_end) ∧
    overlaps ⟨2026, 3, 1⟩ ⟨2026, 3, 5⟩ ⟨2026, 3, 5⟩ ⟨2026, 3, 8⟩ = false ∧
    overlaps ⟨2026, 3, 1⟩ ⟨2026, 3, 5⟩ ⟨2026, 3, 4⟩ ⟨2026, 3, 6⟩ = true := by
  refine ⟨?_, ?_, by decide, by decide⟩
  · intro a_start a_end b_start b_end
    simp [overlaps, PDate.blt, Nat.blt_eq]
  · intro a_start a_end b_start b_end
    unfold overlaps
    exact Bool.and_comm _ _

/-- C9: the record-store load is total and tolerant: a missing file, an empty
file, malformed JSON, and a non-array root all yield the empty sequence; an
array yields exactly its object elements in order, dropping each non-object
element; in particular an array of one object and one non-object element (in
either order) yields exactly that object. -/
theorem C9_read_json_list_tolerant :
    read_json_list .missing = [] ∧
    read_json_list .empty = [] ∧
    read_json_list .malformed = [] ∧
    (∀ j : JValue, (∀ items, j ≠ .arr items) → read_json_list (.content j) = []) ∧
    (∀ items : List JValue,
        read_json_list (.content (.arr items)) =
          items.filterMap (fun v => match v with | .obj f => some f | _ => none)) ∧
    (∀ (f : JObj) (v : JValue), (∀ f', v ≠ .obj f') →
        read_json_list (.content (.arr [.obj f, v])) = [f] ∧
        read_json_list (.content (.arr [v, .obj f])) = [f]) := by
  refine ⟨rfl, rfl, rfl, ?_, ?_, ?_⟩
  · intro j hj
    cases j with
    | arr items => exact absurd rfl (hj items)
    | _ => rfl
  · intro items
    induction items with
    | nil => rfl
    | cons v rest ih =>
      cases v <;> simp [read_json_list, clean_items, List.filterMap_cons] <;>
        simpa [read_json_list] using ih
  · intro f v hv
    constructor <;> cases v <;> first
      | exact absurd rfl (hv _)
      | rfl

/-- Closed instance of C9: a non-array root yields the empty sequence, and an
array of one object and one trailing non-object element yields exactly the
one object. -/
theorem C9_witness :
    read_json_list (.content (.str "oops")) = [] ∧
    read_json_list (.content (.arr [.obj [("k", .num 1)], .num 7])) = [[("k", .num 1)]] :=
  ⟨C9_read_json_list_tolerant.2.2.2.1 _ (fun _ h => JValue.noConfusion h),
   (C9_read_json_list_tolerant.2.2.2.2.2 _ _ (fun _ h => JValue.noConfusion h)).1⟩

/-- C5: `cancel_reservation` succeeds iff some loaded reservation carries the
id, in which case the record is removed and the filtered set persisted; it
fails with no write otherwise; and a second cancel of the same id after a
successful one fails. -/
theorem C5_cancel_reservation (rid : String) (st : SysState) :
    ((cancel_reservation rid st).1 = true ↔
      ∃ r ∈ load_reservations st, r.reservation_id = rid) ∧
    ((cancel_reservation rid st).1 = false → (cancel_reservation rid st).2 = st) ∧
    ((cancel_reservation rid st).1 = true →
      load_reservations (cancel_reservation rid st).2 =
        (load_reservations st).filter (fun r => r.reservation_id != rid) ∧
      (cancel_reservation rid (cancel_reservation rid st).2).1 = false) := by
  rw [cancel_reservation_eq]
  by_cases hc : ((load_reservations st).filter
      (fun r => r.reservation_id != rid)).length = (load_reservations st).length
  · rw [if_pos hc]
    have hall := (length_filter_eq_iff _ _).mp hc
    refine ⟨⟨fun h => absurd h (by simp), fun hex => ?_⟩, fun _ => rfl,
      fun habs => absurd habs (by simp)⟩
    obtain ⟨r, hr, hrid⟩ := hex
    have := hall r hr
    simp [hrid] at this
  · rw [if_neg hc]
    have hex : ∃ r ∈ load_reservations st, r.reservation_id = rid := by
      by_contra hno
      push_neg at hno
      exact hc ((length_filter_eq_iff _ _).mpr (fun r hr => by
        simpa [bne_iff_ne] using hno r hr))
    have hload : load_reservations
        (save_reservations ((load_reservations st).filter
          (fun r => r.reservation_id != rid)) st) =
        (load_reservations st).filter (fun r => r.reservation_id != rid) :=
      load_reservations_save _ st (fun r hr =>
        load_reservations_wf st r (List.mem_of_mem_filter hr))
    refine ⟨by simpa using hex, by simp, fun _ => ⟨hload, ?_⟩⟩
    rw [cancel_reservation_eq, hload]
    rw [if_pos]
    rw [length_filter_eq_iff]
    intro r hr
    exact (List.mem_filter.mp hr).2

/-- Closed instance of C5: cancelling `R1` on a state holding it succeeds,
persists the emptied set, and a second cancel fails. -/
theorem C5_witness :
    (cancel_reservation "R1" stWithR1).1 = true ∧
    load_reservations (cancel_reservation "R1" stWithR1).2 = [] ∧
    (cancel_reservation "R1" (cancel_reservation "R1" stWithR1).2).1 = false := by
  have ht : (cancel_reservation "R1" stWithR1).1 = true := by decide
  obtain ⟨hfiltered, hsecond⟩ := (C5_cancel_reservation "R1" stWithR1).2.2 ht
  refine ⟨ht, ?_, hsecond⟩
  rw [hfiltered]
  decide

/-- C6: no service operation writes any store on failure: whenever
create/delete/modify for hotels or customers, or create/cancel for
reservations, reports failure, the resulting persisted state is exactly the
input state. -/
theorem C6_no_write_on_failure :
    (∀ hid nm rt st, (create_hotel hid nm rt st).1 = false →
      (create_hotel hid nm rt st).2 = st) ∧
    (∀ hid st, (delete_hotel hid st).1 = false → (delete_hotel hid st).2 = st) ∧
    (∀ hid nm rt st, (modify_hotel hid nm rt st).1 = false →
      (modify_hotel hid nm rt st).2 = st) ∧
    (∀ cid nm em st, (create_customer cid nm em st).1 = false →
      (create_customer cid nm em st).2 = st) ∧
    (∀ cid st, (delete_customer cid st).1 = false → (delete_customer cid st).2 = st) ∧
    (∀ cid nm em st, (modify_customer cid nm em st).1 = false →
      (modify_customer cid nm em st).2 = st) ∧
    (∀ rid hid cid ci co n st, (create_reservation rid hid cid ci co n st).1 ≠ .ok →
      (create_reservation rid hid cid ci co n st).2 = st) ∧
    (∀ rid st, (cancel_reservation rid st).1 = false →
      (cancel_reservation rid st).2 = st) := by
  refine ⟨?_, ?_, ?_, ?_, ?_, ?_, ?_, ?_⟩
  · intro hid nm rt st h
    rcases hres : create_hotel hid nm rt st with ⟨flag, st'⟩
    rw [hres] at h
    rw [create_hotel_eq] at hres
    split at hres
    · injection hres with h1 h2; exact h2.symm
    · split at hres
      · injection hres with h1 h2; exact h2.symm
      · injection hres with h1 h2
        rw [← h1] at h; cases h
  · intro hid st h
    rcases hres : delete_hotel hid st with ⟨flag, st'⟩
    rw [hres] at h
    rw [delete_hotel_eq] at hres
    split at hres
    · injection hres with h1 h2; exact h2.symm
    · injection hres with h1 h2
      rw [← h1] at h; cases h
  · intro hid nm rt st h
    rcases hres : modify_hotel hid nm rt st with ⟨flag, st'⟩
    rw [hres] at h
    rw [modify_hotel_eq] at hres
    split at hres
    · injection hres with h1 h2; exact h2.symm
    · split at hres
      · injection hres with h1 h2; exact h2.symm
      · injection hres with h1 h2
        rw [← h1] at h; cases h
  · intro cid nm em st h
    rcases hres : create_customer cid nm em st with ⟨flag, st'⟩
    rw [hres] at h
    rw [create_customer_eq] at hres
    split at hres
    · injection hres with h1 h2; exact h2.symm
    · split at hres
      · injection hres with h1 h2; exact h2.symm
      · injection hres with h1 h2
        rw [← h1] at h; cases h
  · intro cid st h
    rcases hres : delete_customer cid st with ⟨flag, st'⟩
    rw [hres] at h
    rw [delete_customer_eq] at hres
    split at hres
    · injection hres with h1 h2; exact h2.symm
    · injection hres with h1 h2
      rw [← h1] at h; cases h
  · intro cid nm em st h
    rcases hres : modify_customer cid nm em st with ⟨flag, st'⟩
    rw [hres] at h
    rw [modify_customer_eq] at hres
    split at hres
    · injection hres with h1 h2; exact h2.symm
    · split at hres
      · injection hres with h1 h2; exact h2.symm
      · injection hres with h1 h2
        rw [← h1] at h; cases h
  · intro rid hid cid ci co n st h
    rcases hres : create_reservation rid hid cid ci co n st with ⟨flag, st'⟩
    rw [hres] at h
    rw [create_reservation_eq] at hres
    split at hres
    · injection hres with h1 h2; exact h2.symm
    · split at hres
      · injection hres with h1 h2; exact h2.symm
      · split at hres
        · injection hres with h1 h2; exact h2.symm
        · split at hres
          · injection hres with h1 h2; exact h2.symm
          · split at hres
            · injection hres with h1 h2; exact h2.symm
            · injection hres with h1 h2
              rw [← h1] at h
              exact absurd rfl h
  · intro rid st h
    rcases hres : cancel_reservation rid st with ⟨flag, st'⟩
    rw [hres] at h
    rw [cancel_reservation_eq] at hres
    split at hres
    · injection hres with h1 h2; exact h2.symm
    · injection hres with h1 h2
      rw [← h1] at h; cases h

/-- Closed instance of C6: a duplicate-id hotel create and a reservation
create against an unknown hotel both fail and leave the state untouched. -/
theorem C6_witness :
    (create_hotel "H1" "Other" 5 stBase).1 = false ∧
    (create_hotel "H1" "Other" 5 stBase).2 = stBase ∧
    (create_reservation "R9" "NOPE" "C1" ⟨2026, 3, 1⟩ ⟨2026, 3, 2⟩ 1 stBase).2 = stBase := by
  have h1 : (create_hotel "H1" "Other" 5 stBase).1 = false := by decide
  refine ⟨h1, C6_no_write_on_failure.1 "H1" "Other" 5 stBase h1, ?_⟩
  exact C6_no_write_on_failure.2.2.2.2.2.2.1 "R9" "NOPE" "C1" ⟨2026, 3, 1⟩ ⟨2026, 3, 2⟩ 1
    stBase (by decide)

/-- C7: `create_reservation` never touches the hotels or customers stores; on
success it rewrites the reservations store in full, as the pre-insertion
record set with the new reservation appended; on failure it leaves the
reservations store unchanged as well. -/
theorem C7_create_reservation_frame (rid hid cid : String) (ci co : PDate)
    (n : Int) (st : SysState) :
    (create_reservation rid hid cid ci co n st).2.hotels_file = st.hotels_file ∧
    (create_reservation rid hid cid ci co n st).2.customers_file = st.customers_file ∧
    ((create_reservation rid hid cid ci co n st).1 = .ok →
      (create_reservation rid hid cid ci co n st).2.reservations_file =
        write_json_list
          ((load_reservations st ++ [(⟨rid, hid, cid, ci, co, n⟩ : Reservation)]).map
            Reservation.to_dict)) ∧
    ((create_reservation rid hid cid ci co n st).1 ≠ .ok →
      (create_reservation rid hid cid ci co n st).2.reservations_file =
        st.reservations_file) := by
  rcases hres : create_reservation rid hid cid ci co n st with ⟨flag, st'⟩
  rw [create_reservation_eq] at hres
  split at hres
  · injection hres with h1 h2
    subst h2
    refine ⟨rfl, rfl, fun hok => ?_, fun _ => rfl⟩
    rw [← h1] at hok
    simp at hok
  · split at hres
    · injection hres with h1 h2
      subst h2
      refine ⟨rfl, rfl, fun hok => ?_, fun _ => rfl⟩
      rw [← h1] at hok
      simp at hok
    · split at hres
      · injection hres with h1 h2
        subst h2
        refine ⟨rfl, rfl, fun hok => ?_, fun _ => rfl⟩
        rw [← h1] at hok
        simp at hok
      · split at hres
        · injection hres with h1 h2
          subst h2
          refine ⟨rfl, rfl, fun hok => ?_, fun _ => rfl⟩
          rw [← h1] at hok
          simp at hok
        · next reservation hmake =>
          split at hres
          · injection hres with h1 h2
            subst h2
            refine ⟨rfl, rfl, fun hok => ?_, fun _ => rfl⟩
            rw [← h1] at hok
            simp at hok
          · obtain ⟨-, -, -, -, -, hr⟩ := reservation_make_eq_some.mp hmake
            subst hr
            injection hres with h1 h2
            subst h2
            exact ⟨rfl, rfl, fun _ => rfl, fun hnok => absurd h1.symm hnok⟩

/-- Closed instance of C7: a successful create on the base state leaves the
hotels store untouched and rewrites the reservations store with the new
record appended. -/
theorem C7_witness :
    (create_reservation "R1" "H1" "C1" ⟨2026, 3, 1⟩ ⟨2026, 3, 5⟩ 3 stBase).2.hotels_file =
      stBase.hotels_file ∧
    (create_reservation "R1" "H1" "C1" ⟨2026, 3, 1⟩ ⟨2026, 3, 5⟩ 3 stBase).2.reservations_file =
      write_json_list
        ((load_reservations stBase ++
          [(⟨"R1", "H1", "C1", ⟨2026, 3, 1⟩, ⟨2026, 3, 5⟩, 3⟩ : Reservation)]).map
          Reservation.to_dict) := by
  refine ⟨(C7_create_reservation_frame "R1" "H1" "C1" ⟨2026, 3, 1⟩ ⟨2026, 3, 5⟩ 3 stBase).1, ?_⟩
  exact (C7_create_reservation_frame "R1" "H1" "C1" ⟨2026, 3, 1⟩ ⟨2026, 3, 5⟩ 3
    stBase).2.2.1 (by decide)

/-! ## Find and validation bridging lemmas -/

theorem find_reservation_isSome_iff {rs : List Reservation} {rid : String} :
    (find_reservation rs rid).isSome = true ↔ ∃ r ∈ rs, r.reservation_id = rid := by
  unfold find_reservation
  rw [List.find?_isSome]
  simp [beq_iff_eq]

theorem find_hotel_isSome_iff {hs : List Hotel} {hid : String} :
    (find_hotel hs hid).isSome = true ↔ ∃ h ∈ hs, h.hotel_id = hid := by
  unfold find_hotel
  rw [List.find?_isSome]
  simp [beq_iff_eq]

theorem find_customer_isSome_iff {cs : List Customer} {cid : String} :
    (find_customer cs cid).isSome = true ↔ ∃ c ∈ cs, c.customer_id = cid := by
  unfold find_customer
  rw [List.find?_isSome]
  simp [beq_iff_eq]

theorem find_hotel_eq_none_iff {hs : List Hotel} {hid : String} :
    find_hotel hs hid = none ↔ ∀ h ∈ hs, h.hotel_id ≠ hid := by
  unfold find_hotel
  rw [List.find?_eq_none]
  simp [beq_iff_eq]

theorem find_customer_eq_none_iff {cs : List Customer} {cid : String} :
    find_customer cs cid = none ↔ ∀ c ∈ cs, c.customer_id ≠ cid := by
  unfold find_customer
  rw [List.find?_eq_none]
  simp [beq_iff_eq]

theorem find_hotel_eq_some_id {hs : List Hotel} {hid : String} {H : Hotel}
    (h : find_hotel hs hid = some H) : H ∈ hs ∧ H.hotel_id = hid := by
  refine ⟨List.mem_of_find?_eq_some h, ?_⟩
  have := List.find?_some h
  simpa [beq_iff_eq] using this

theorem reservation_make_eq_none {a b c : String} {ci co : PDate} {n : Int} :
    Reservation.make a b c ci co n = none ↔
      pyStrip a = "" ∨ pyStrip b = "" ∨ pyStrip c = "" ∨
        co.toNum ≤ ci.toNum ∨ n ≤ 0 := by
  cases hm : Reservation.make a b c ci co n with
  | some r =>
    obtain ⟨h1, h2, h3, h4, h5, -⟩ := reservation_make_eq_some.mp hm
    simp only [reduceCtorEq, false_iff]
    push_neg
    exact ⟨h1, h2, h3, by omega, by omega⟩
  | none =>
    simp only [true_iff]
    by_contra hno
    push_neg at hno
    obtain ⟨h1, h2, h3, h4, h5⟩ := hno
    have : Reservation.make a b c ci co n = some ⟨a, b, c, ci, co, n⟩ :=
      reservation_make_eq_some.mpr ⟨h1, h2, h3, by omega, by omega, rfl⟩
    rw [hm] at this
    cases this

/-- C4: `create_reservation` evaluates its failure conditions in order —
duplicate reservation id, then unknown hotel, then unknown customer, then
entity validation (blank ids, `check_out <= check_in`, `rooms <= 0`), then
capacity — returning the first failure that applies, and succeeds iff none
applies. -/
theorem C4_failure_order (rid hid cid : String) (ci co : PDate) (n : Int)
    (st : SysState) :
    ((create_reservation rid hid cid ci co n st).1 = .duplicate_id ↔
      ∃ r ∈ load_reservations st, r.reservation_id = rid) ∧
    ((create_reservation rid hid cid ci co n st).1 = .hotel_not_found ↔
      ¬(∃ r ∈ load_reservations st, r.reservation_id = rid) ∧
        ¬(∃ h ∈ load_hotels st, h.hotel_id = hid)) ∧
    ((create_reservation rid hid cid ci co n st).1 = .customer_not_found ↔
      ¬(∃ r ∈ load_reservations st, r.reservation_id = rid) ∧
        (∃ h ∈ load_hotels st, h.hotel_id = hid) ∧
        ¬(∃ c ∈ load_customers st, c.customer_id = cid)) ∧
    ((create_reservation rid hid cid ci co n st).1 = .invalid_entity ↔
      ¬(∃ r ∈ load_reservations st, r.reservation_id = rid) ∧
        (∃ h ∈ load_hotels st, h.hotel_id = hid) ∧
        (∃ c ∈ load_customers st, c.customer_id = cid) ∧
        Reservation.make rid hid cid ci co n = none) ∧
    ((∃ req av, (create_reservation rid hid cid ci co n st).1 =
        .insufficient_capacity req av) ↔
      ¬(∃ r ∈ load_reservations st, r.reservation_id = rid) ∧
        (∃ c ∈ load_customers st, c.customer_id = cid) ∧
        Reservation.make rid hid cid ci co n ≠ none ∧
        ∃ H, find_hotel (load_hotels st) hid = some H ∧
          n > H.rooms_total -
            rooms_booked_for_hotel (load_reservations st) hid ci co) ∧
    ((create_reservation rid hid cid ci co n st).1 = .ok ↔
      ¬(∃ r ∈ load_reservations st, r.reservation_id = rid) ∧
        (∃ c ∈ load_customers st, c.customer_id = cid) ∧
        Reservation.make rid hid cid ci co n ≠ none ∧
        ∃ H, find_hotel (load_hotels st) hid = some H ∧
          n ≤ H.rooms_total -
            rooms_booked_for_hotel (load_reservations st) hid ci co) ∧
    (Reservation.make rid hid cid ci co n = none ↔
      pyStrip rid = "" ∨ pyStrip hid = "" ∨ pyStrip cid = "" ∨
        co.toNum ≤ ci.toNum ∨ n ≤ 0) := by
  cases hdup : (find_reservation (load_reservations st) rid).isSome with
  | true =>
    have hdupP : ∃ r ∈ load_reservations st, r.reservation_id = rid :=
      find_reservation_isSome_iff.mp hdup
    have hres : (create_reservation rid hid cid ci co n st).1 = .duplicate_id := by
      rw [create_reservation_eq, if_pos hdup]
    rw [hres]
    exact ⟨iff_of_true rfl hdupP,
      iff_of_false (by simp) (fun hcon => hcon.1 hdupP),
      iff_of_false (by simp) (fun hcon => hcon.1 hdupP),
      iff_of_false (by simp) (fun hcon => hcon.1 hdupP),
      iff_of_false (by simp) (fun hcon => hcon.1 hdupP),
      iff_of_false (by simp) (fun hcon => hcon.1 hdupP),
      reservation_make_eq_none⟩
  | false =>
    have hdupP : ¬ ∃ r ∈ load_reservations st, r.reservation_id = rid := by
      rw [← find_reservation_isSome_iff, hdup]
      simp
    have hifn : ¬ ((find_reservation (load_reservations st) rid).isSome = true) := by
      simp [hdup]
    cases hh : find_hotel (load_hotels st) hid with
    | none =>
      have hnf : ¬ ∃ h ∈ load_hotels st, h.hotel_id = hid := by
        have hall := find_hotel_eq_none_iff.mp hh
        rintro ⟨H, hm, he⟩
        exact hall H hm he
      have hres : (create_reservation rid hid cid ci co n st).1 = .hotel_not_found := by
        rw [create_reservation_eq, if_neg hifn, hh]
      rw [hres]
      refine ⟨iff_of_false (by simp) (fun hcon => hdupP hcon),
        iff_of_true rfl ⟨hdupP, hnf⟩,
        iff_of_false (by simp) (fun hcon => hnf hcon.2.1),
        iff_of_false (by simp) (fun hcon => hnf hcon.2.1),
        iff_of_false (by simp) ?_,
        iff_of_false (by simp) ?_,
        reservation_make_eq_none⟩
      · rintro ⟨-, -, -, H, hfind, -⟩
        cases hfind
      · rintro ⟨-, -, -, H, hfind, -⟩
        cases hfind
    | some H =>
      have hHm := find_hotel_eq_some_id hh
      have hhf : ∃ h ∈ load_hotels st, h.hotel_id = hid := ⟨H, hHm.1, hHm.2⟩
      cases hc : find_customer (load_customers st) cid with
      | none =>
        have hncf : ¬ ∃ c ∈ load_customers st, c.customer_id = cid := by
          have hall := find_customer_eq_none_iff.mp hc
          rintro ⟨c, hm, he⟩
          exact hall c hm he
        have hres :
            (create_reservation rid hid cid ci co n st).1 = .customer_not_found := by
          rw [create_reservation_eq, if_neg hifn, hh, hc]
        rw [hres]
        exact ⟨iff_of_false (by simp) (fun hcon => hdupP hcon),
          iff_of_false (by simp) (fun hcon => hcon.2 hhf),
          iff_of_true rfl ⟨hdupP, hhf, hncf⟩,
          iff_of_false (by simp) (fun hcon => hncf hcon.2.2.1),
          iff_of_false (by simp) (fun hcon => hncf hcon.2.1),
          iff_of_false (by simp) (fun hcon => hncf hcon.2.1),
          reservation_make_eq_none⟩
      | some c =>
        have hcf : ∃ c' ∈ load_customers st, c'.customer_id = cid := by
          have h1 := List.mem_of_find?_eq_some hc
          have h2 := List.find?_some hc
          exact ⟨c, h1, by simpa [beq_iff_eq] using h2⟩
        cases hm : Reservation.make rid hid cid ci co n with
        | none =>
          have hres :
              (create_reservation rid hid cid ci co n st).1 = .invalid_entity := by
            rw [create_reservation_eq, if_neg hifn, hh, hc, hm]
          rw [hres]
          exact ⟨iff_of_false (by simp) (fun hcon => hdupP hcon),
            iff_of_false (by simp) (fun hcon => hcon.2 hhf),
            iff_of_false (by simp) (fun hcon => hcon.2.2 hcf),
            iff_of_true rfl ⟨hdupP, hhf, hcf, rfl⟩,
            iff_of_false (by simp) (fun hcon => hcon.2.2.1 rfl),
            iff_of_false (by simp) (fun hcon => hcon.2.2.1 rfl),
            iff_of_true rfl (reservation_make_eq_none.mp hm)⟩
        | some r =>
          obtain ⟨hv1, hv2, hv3, hv4, hv5, hrval⟩ := reservation_make_eq_some.mp hm
          subst hrval
          by_cases hcap : n > H.rooms_total -
              rooms_booked_for_hotel (load_reservations st) hid ci co
          · have hres : (create_reservation rid hid cid ci co n st).1 =
                .insufficient_capacity n
                  (H.rooms_total -
                    rooms_booked_for_hotel (load_reservations st) hid ci co) := by
              rw [create_reservation_eq, if_neg hifn, hh, hc, hm]
              simp only
              rw [if_pos hcap]
            rw [hres]
            refine ⟨iff_of_false (by simp) (fun hcon => hdupP hcon),
              iff_of_false (by simp) (fun hcon => hcon.2 hhf),
              iff_of_false (by simp) (fun hcon => hcon.2.2 hcf),
              iff_of_false (by simp) (fun hcon => by cases hcon.2.2.2),
              iff_of_true ⟨n, _, rfl⟩ ⟨hdupP, hcf, by simp, H, rfl, hcap⟩,
              iff_of_false (by simp) ?_,
              (iff_of_false (by simp) (fun hcon => by
                rcases hcon with h | h | h | h | h
                exacts [hv1 h, hv2 h, hv3 h, by omega, by omega]))⟩
            rintro ⟨-, -, -, H', hfind, hle⟩
            injection hfind with hfind
            subst hfind
            omega
          · have hres : (create_reservation rid hid cid ci co n st).1 = .ok := by
              rw [create_reservation_eq, if_neg hifn, hh, hc, hm]
              simp only
              rw [if_neg hcap]
            rw [hres]
            refine ⟨iff_of_false (by simp) (fun hcon => hdupP hcon),
              iff_of_false (by simp) (fun hcon => hcon.2 hhf),
              iff_of_false (by simp) (fun hcon => hcon.2.2 hcf),
              iff_of_false (by simp) (fun hcon => by cases hcon.2.2.2),
              iff_of_false (by simp) ?_,
              iff_of_true rfl ⟨hdupP, hcf, by simp, H, rfl, by omega⟩,
              (iff_of_false (by simp) (fun hcon => by
                rcases hcon with h | h | h | h | h
                exacts [hv1 h, hv2 h, hv3 h, by omega, by omega]))⟩
            rintro ⟨-, -, -, H', hfind, hgt⟩
            injection hfind with hfind
            subst hfind
            omega

/-- Closed instance of C4: recreating an existing reservation id fails with
the duplicate-id diagnostic. -/
theorem C4_witness :
    (create_reservation "R1" "H1" "C1" ⟨2026, 3, 2⟩ ⟨2026, 3, 6⟩ 1 stWithR1).1 =
      .duplicate_id :=
  (C4_failure_order "R1" "H1" "C1" ⟨2026, 3, 2⟩ ⟨2026, 3, 6⟩ 1 stWithR1).1.mpr
    ⟨⟨"R1", "H1", "C1", ⟨2026, 3, 1⟩, ⟨2026, 3, 5⟩, 3⟩, by decide, rfl⟩

/-- C3: `_rooms_booked_for_hotel` sums `rooms` over exactly the reservations
of the hotel whose stay overlaps the queried range; once the earlier checks
of `create_reservation` pass, the call fails with the insufficient-capacity
diagnostic iff the requested rooms exceed `rooms_total` minus that sum over
the pre-insertion set, and the diagnostic carries exactly the requested and
available counts. -/
theorem C3_rooms_committed (rid hid cid : String) (ci co : PDate) (n : Int)
    (st : SysState) (H : Hotel) :
    (∀ (reservations : List Reservation) (hotel_id : String)
        (check_in check_out : PDate),
        rooms_booked_for_hotel reservations hotel_id check_in check_out =
          ((reservations.filter (fun r => r.hotel_id == hotel_id &&
              overlaps r.check_in r.check_out check_in check_out)).map
            Reservation.rooms).sum) ∧
    ((find_reservation (load_reservations st) rid).isSome = false →
      find_hotel (load_hotels st) hid = some H →
      (find_customer (load_customers st) cid).isSome = true →
      Reservation.make rid hid cid ci co n ≠ none →
      ∀ req av,
        (create_reservation rid hid cid ci co n st).1 =
            .insufficient_capacity req av ↔
          req = n ∧
          av = H.rooms_total -
            rooms_booked_for_hotel (load_reservations st) hid ci co ∧
          n > H.rooms_total -
            rooms_booked_for_hotel (load_reservations st) hid ci co) := by
  constructor
  · intro reservations hotel_id check_in check_out
    induction reservations with
    | nil => rfl
    | cons r rest ih =>
      by_cases hcond : (r.hotel_id == hotel_id &&
          overlaps r.check_in r.check_out check_in check_out) = true
      · simp [rooms_booked_for_hotel, List.filter_cons, hcond, ih]
      · simp only [Bool.not_eq_true] at hcond
        simp [rooms_booked_for_hotel, List.filter_cons, hcond, ih]
  · intro hdup hH hc hm req av
    have hifn : ¬ ((find_reservation (load_reservations st) rid).isSome = true) := by
      simp [hdup]
    obtain ⟨cval, hcval⟩ := Option.isSome_iff_exists.mp hc
    rcases hmk : Reservation.make rid hid cid ci co n with _ | r
    · exact absurd hmk hm
    · obtain ⟨hv1, hv2, hv3, hv4, hv5, hrv⟩ := reservation_make_eq_some.mp hmk
      subst hrv
      by_cases hcap : n > H.rooms_total -
          rooms_booked_for_hotel (load_reservations st) hid ci co
      · have hres : (create_reservation rid hid cid ci co n st).1 =
            .insufficient_capacity n
              (H.rooms_total -
                rooms_booked_for_hotel (load_reservations st) hid ci co) := by
          rw [create_reservation_eq, if_neg hifn, hH, hcval, hmk]
          simp only
          rw [if_pos hcap]
        rw [hres]
        constructor
        · intro he
          injection he with he1 he2
          exact ⟨he1.symm, he2.symm, hcap⟩
        · rintro ⟨rfl, rfl, -⟩
          rfl
      · have hres : (create_reservation rid hid cid ci co n st).1 = .ok := by
          rw [create_reservation_eq, if_neg hifn, hH, hcval, hmk]
          simp only
          rw [if_neg hcap]
        rw [hres]
        constructor
        · intro he
          cases he
        · rintro ⟨-, -, hgt⟩
          exact absurd hgt hcap

/-- Closed instance of C3: with three of ten rooms committed over an
overlapping range, requesting eight rooms fails with requested = 8 and
available = 7. -/
theorem C3_witness :
    (create_reservation "R2" "H1" "C1" ⟨2026, 3, 2⟩ ⟨2026, 3, 4⟩ 8 stWithR1).1 =
      .insufficient_capacity 8 7 := by
  have h := (C3_rooms_committed "R2" "H1" "C1" ⟨2026, 3, 2⟩ ⟨2026, 3, 4⟩ 8 stWithR1
    ⟨"H1", "Plaza", 10⟩).2 (by decide) (by decide) (by decide) (by decide) 8 7
  exact h.mpr ⟨rfl, by decide, by decide⟩

/-! ## Capacity arithmetic lemmas -/

theorem rooms_active_at_cons (r : Reservation) (rest : List Reservation)
    (hid : String) (t : PDate) :
    rooms_active_at (r :: rest) hid t =
      (if (r.hotel_id == hid && active_at r t) = true then r.rooms else 0) +
        rooms_active_at rest hid t := by
  unfold rooms_active_at
  rw [List.filter_cons]
  split_ifs with h
  · simp
  · simp

theorem active_imp_overlaps {r : Reservation} {t ci co : PDate}
    (h1 : ci.toNum ≤ t.toNum) (h2 : t.toNum < co.toNum)
    (ha : active_at r t = true) :
    overlaps r.check_in r.check_out ci co = true := by
  simp only [active_at, overlaps, PDate.ble, PDate.blt, Bool.and_eq_true,
    Nat.ble_eq, Nat.blt_eq] at *
  omega

theorem rooms_active_at_le_booked {rs : List Reservation} {hid : String}
    {t ci co : PDate} (hpos : ∀ r ∈ rs, 0 < r.rooms)
    (h1 : ci.toNum ≤ t.toNum) (h2 : t.toNum < co.toNum) :
    rooms_active_at rs hid t ≤ rooms_booked_for_hotel rs hid ci co := by
  induction rs with
  | nil => simp [rooms_active_at, rooms_booked_for_hotel]
  | cons r rest ih =>
    have ihr := ih (fun x hx => hpos x (List.mem_cons_of_mem _ hx))
    have hrpos := hpos r (List.mem_cons_self _ _)
    rw [rooms_active_at_cons]
    show _ ≤ (if (r.hotel_id == hid &&
        overlaps r.check_in r.check_out ci co) = true then r.rooms else 0) +
      rooms_booked_for_hotel rest hid ci co
    by_cases hc : (r.hotel_id == hid && active_at r t) = true
    · rw [if_pos hc]
      obtain ⟨hcid, hact⟩ : (r.hotel_id == hid) = true ∧ active_at r t = true := by
        simpa using hc
      rw [if_pos (show (r.hotel_id == hid &&
          overlaps r.check_in r.check_out ci co) = true by
        simp [hcid, active_imp_overlaps h1 h2 hact])]
      omega
    · rw [if_neg hc]
      split_ifs with h
      · omega
      · omega

theorem rooms_active_at_append (rs1 rs2 : List Reservation) (hid : String)
    (t : PDate) :
    rooms_active_at (rs1 ++ rs2) hid t =
      rooms_active_at rs1 hid t + rooms_active_at rs2 hid t := by
  unfold rooms_active_at
  rw [List.filter_append, List.map_append, List.sum_append]

theorem create_reservation_ok_spec {rid hid cid : String} {ci co : PDate}
    {n : Int} {st : SysState}
    (hok : (create_reservation rid hid cid ci co n st).1 = .ok) :
    ∃ H, find_hotel (load_hotels st) hid = some H ∧
      Reservation.make rid hid cid ci co n =
        some ⟨rid, hid, cid, ci, co, n⟩ ∧
      n ≤ H.rooms_total -
        rooms_booked_for_hotel (load_reservations st) hid ci co ∧
      (create_reservation rid hid cid ci co n st).2 =
        save_reservations
          (load_reservations st ++ [⟨rid, hid, cid, ci, co, n⟩]) st := by
  rcases hres : create_reservation rid hid cid ci co n st with ⟨flag, st'⟩
  rw [hres] at hok
  have hflag : flag = .ok := hok
  subst hflag
  rw [create_reservation_eq] at hres
  split at hres
  · injection hres with h1 h2
    cases h1
  · split at hres
    · injection hres with h1 h2
      cases h1
    · split at hres
      · injection hres with h1 h2
        cases h1
      · split at hres
        · injection hres with h1 h2
          cases h1
        · next reservation hmake =>
          split at hres
          · injection hres with h1 h2
            cases h1
          · next hcap =>
            obtain ⟨-, -, -, -, -, hrval⟩ := reservation_make_eq_some.mp hmake
            subst hrval
            injection hres with h1 h2
            refine ⟨_, ‹find_hotel (load_hotels st) hid = some _›, hmake, ?_, h2.symm⟩
            exact not_lt.mp hcap

/-- C1: if every instant satisfies the capacity invariant for the hotel the
service resolves for a hotel id before a `create_reservation` call, and the
call succeeds, then every instant still satisfies it afterwards, with the new
reservation included. -/
theorem C1_capacity_invariant (rid hid cid : String) (ci co : PDate) (n : Int)
    (st : SysState) (hidQ : String) (H : Hotel)
    (hciv : ci.Valid) (hcov : co.Valid)
    (hfind : find_hotel (load_hotels st) hidQ = some H)
    (hpre : ∀ t, rooms_active_at (load_reservations st) hidQ t ≤ H.rooms_total)
    (hok : (create_reservation rid hid cid ci co n st).1 = .ok) :
    ∀ t, rooms_active_at
        (load_reservations (create_reservation rid hid cid ci co n st).2) hidQ t ≤
      H.rooms_total := by
  obtain ⟨hotel, hfh, hmk, hle, hst⟩ := create_reservation_ok_spec hok
  obtain ⟨hv1, hv2, hv3, hv4, hv5, -⟩ := reservation_make_eq_some.mp hmk
  have hwfN : (⟨rid, hid, cid, ci, co, n⟩ : Reservation).Wf :=
    ⟨hv1, hv2, hv3, hv4, hv5, hciv, hcov⟩
  have hload : load_reservations (create_reservation rid hid cid ci co n st).2 =
      load_reservations st ++ [⟨rid, hid, cid, ci, co, n⟩] := by
    rw [hst]
    refine load_reservations_save _ st ?_
    intro r hr
    rcases List.mem_append.mp hr with hr | hr
    · exact load_reservations_wf st r hr
    · rw [List.mem_singleton.mp hr]
      exact hwfN
  rw [hload]
  intro t
  rw [rooms_active_at_append, rooms_active_at_cons]
  have hnil : rooms_active_at ([] : List Reservation) hidQ t = 0 := rfl
  rw [hnil]
  by_cases hcnd : ((⟨rid, hid, cid, ci, co, n⟩ : Reservation).hotel_id == hidQ &&
      active_at ⟨rid, hid, cid, ci, co, n⟩ t) = true
  · obtain ⟨heq, hact⟩ :
        ((⟨rid, hid, cid, ci, co, n⟩ : Reservation).hotel_id == hidQ) = true ∧
          active_at ⟨rid, hid, cid, ci, co, n⟩ t = true := by
      simpa using hcnd
    have hhid : hid = hidQ := by simpa [beq_iff_eq] using heq
    subst hhid
    rw [hfind] at hfh
    injection hfh with hfh
    subst hfh
    have hact' : ci.toNum ≤ t.toNum ∧ t.toNum < co.toNum := by
      simpa [active_at, PDate.ble, PDate.blt, Nat.ble_eq, Nat.blt_eq] using hact
    have hbound := @rooms_active_at_le_booked (load_reservations st) hid t ci co
      (fun r hr => (load_reservations_wf st r hr).2.2.2.2.1) hact'.1 hact'.2
    rw [if_pos hcnd]
    have hrooms : (⟨rid, hid, cid, ci, co, n⟩ : Reservation).rooms = n := rfl
    rw [hrooms]
    omega
  · rw [if_neg hcnd]
    have := hpre t
    omega

/-- Closed instance of C1: after the successful creation of `R1`, the rooms
active for `H1` on 2026-03-02 stay within the hotel's ten rooms. -/
theorem C1_witness :
    rooms_active_at
      (load_reservations
        (create_reservation "R1" "H1" "C1" ⟨2026, 3, 1⟩ ⟨2026, 3, 5⟩ 3 stBase).2)
      "H1" ⟨2026, 3, 2⟩ ≤ (10 : Int) :=
  C1_capacity_invariant "R1" "H1" "C1" ⟨2026, 3, 1⟩ ⟨2026, 3, 5⟩ 3 stBase "H1"
    ⟨"H1", "Plaza", 10⟩ (by decide) (by decide) (by decide)
    (fun t => by
      have h0 : rooms_active_at (load_reservations stBase) "H1" t = 0 := rfl
      rw [h0]
      decide)
    (by decide) ⟨2026, 3, 2⟩

/-! ## Store wellformedness after writes -/

theorem hotels_store_wf_write (hs : List Hotel) (hw : ∀ h ∈ hs, h.Wf) :
    hotels_store_wf (write_json_list (hs.map Hotel.to_dict)) := by
  intro o ho
  rw [read_write_json, List.map_map] at ho
  obtain ⟨h, hm, rfl⟩ := List.mem_map.mp ho
  have := hotel_from_to h (hw h hm)
  simp only [Function.comp_apply]
  rw [this]
  rfl

theorem customers_store_wf_write (cs : List Customer) (hw : ∀ c ∈ cs, c.Wf) :
    customers_store_wf (write_json_list (cs.map Customer.to_dict)) := by
  intro o ho
  rw [read_write_json, List.map_map] at ho
  obtain ⟨c, hm, rfl⟩ := List.mem_map.mp ho
  have := customer_from_to c (hw c hm)
  simp only [Function.comp_apply]
  rw [this]
  rfl

theorem reservations_store_wf_write (rs : List Reservation)
    (hw : ∀ r ∈ rs, r.Wf) :
    reservations_store_wf (write_json_list (rs.map Reservation.to_dict)) := by
  intro o ho
  rw [read_write_json, List.map_map] at ho
  obtain ⟨r, hm, rfl⟩ := List.mem_map.mp ho
  have := reservation_from_to r (hw r hm)
  simp only [Function.comp_apply]
  rw [this]
  rfl

theorem hotel_make_wf {a b : String} {c : Int} {h : Hotel}
    (hm : Hotel.make a b c = some h) : h.Wf := by
  obtain ⟨h1, h2, h3, rfl⟩ := hotel_make_eq_some.mp hm
  exact ⟨h1, h2, h3⟩

theorem customer_make_wf {a b c : String} {e : Customer}
    (hm : Customer.make a b c = some e) : e.Wf := by
  obtain ⟨h1, h2, h3, h4, rfl⟩ := customer_make_eq_some.mp hm
  exact ⟨h1, h2, h3, h4⟩

/-- C10 (implicit): every successful mutation rewrites its collection from
the loaded, validated in-memory set — so records that failed entity
validation at load time are dropped from the file — and afterwards every
record on disk is again accepted by the entity validator. -/
theorem C10_rewrite_validates :
    (∀ hid nm rt st, (create_hotel hid nm rt st).1 = true →
      ∃ h, Hotel.make hid nm rt = some h ∧
        (create_hotel hid nm rt st).2.hotels_file =
          write_json_list ((load_hotels st ++ [h]).map Hotel.to_dict) ∧
        hotels_store_wf (create_hotel hid nm rt st).2.hotels_file) ∧
    (∀ hid st, (delete_hotel hid st).1 = true →
      (delete_hotel hid st).2.hotels_file =
        write_json_list
          (((load_hotels st).filter (fun h => h.hotel_id != hid)).map
            Hotel.to_dict) ∧
      hotels_store_wf (delete_hotel hid st).2.hotels_file) ∧
    (∀ hid nm rt st, (modify_hotel hid nm rt st).1 = true →
      ∃ updated,
        (modify_hotel hid nm rt st).2.hotels_file =
          write_json_list
            (((load_hotels st).map
              (fun h => if h.hotel_id == hid then updated else h)).map
              Hotel.to_dict) ∧
        hotels_store_wf (modify_hotel hid nm rt st).2.hotels_file) ∧
    (∀ cid nm em st, (create_customer cid nm em st).1 = true →
      ∃ c, Customer.make cid nm em = some c ∧
        (create_customer cid nm em st).2.customers_file =
          write_json_list ((load_customers st ++ [c]).map Customer.to_dict) ∧
        customers_store_wf (create_customer cid nm em st).2.customers_file) ∧
    (∀ cid st, (delete_customer cid st).1 = true →
      (delete_customer cid st).2.customers_file =
        write_json_list
          (((load_customers st).filter (fun c => c.customer_id != cid)).map
            Customer.to_dict) ∧
      customers_store_wf (delete_customer cid st).2.customers_file) ∧
    (∀ cid nm em st, (modify_customer cid nm em st).1 = true →
      ∃ updated,
        (modify_customer cid nm em st).2.customers_file =
          write_json_list
            (((load_customers st).map
              (fun c => if c.customer_id == cid then updated else c)).map
              Customer.to_dict) ∧
        customers_store_wf (modify_customer cid nm em st).2.customers_file) ∧
    (∀ rid hid cid ci co n st, ci.Valid → co.Valid →
      (create_reservation rid hid cid ci co n st).1 = .ok →
      (create_reservation rid hid cid ci co n st).2.reservations_file =
        write_json_list
          ((load_reservations st ++ [(⟨rid, hid, cid, ci, co, n⟩ : Reservation)]).map
            Reservation.to_dict) ∧
      reservations_store_wf
        (create_reservation rid hid cid ci co n st).2.reservations_file) ∧
    (∀ rid st, (cancel_reservation rid st).1 = true →
      (cancel_reservation rid st).2.reservations_file =
        write_json_list
          (((load_reservations st).filter (fun r => r.reservation_id != rid)).map
            Reservation.to_dict) ∧
      reservations_store_wf (cancel_reservation rid st).2.reservations_file) := by
  refine ⟨?_, ?_, ?_, ?_, ?_, ?_, ?_, ?_⟩
  · intro hid nm rt st hok
    rcases hres : create_hotel hid nm rt st with ⟨flag, st'⟩
    rw [hres] at hok
    have hflag : flag = true := hok
    subst hflag
    rw [create_hotel_eq] at hres
    split at hres
    · injection hres with h1 h2
      cases h1
    · split at hres
      · injection hres with h1 h2
        cases h1
      · next hotel hmk =>
        injection hres with h1 h2
        have hwall : ∀ h ∈ load_hotels st ++ [hotel], h.Wf := by
          intro h hm
          rcases List.mem_append.mp hm with hm | hm
          · exact load_hotels_wf st h hm
          · rw [List.mem_singleton.mp hm]
            exact hotel_make_wf hmk
        refine ⟨hotel, hmk, ?_, ?_⟩
        · rw [← h2]
          rfl
        · rw [← h2]
          exact hotels_store_wf_write _ hwall
  · intro hid st hok
    rcases hres : delete_hotel hid st with ⟨flag, st'⟩
    rw [hres] at hok
    have hflag : flag = true := hok
    subst hflag
    rw [delete_hotel_eq] at hres
    split at hres
    · injection hres with h1 h2
      cases h1
    · injection hres with h1 h2
      have hwall : ∀ h ∈ (load_hotels st).filter (fun h => h.hotel_id != hid), h.Wf :=
        fun h hm => load_hotels_wf st h (List.mem_of_mem_filter hm)
      refine ⟨?_, ?_⟩
      · rw [← h2]
        rfl
      · rw [← h2]
        exact hotels_store_wf_write _ hwall
  · intro hid nm rt st hok
    rcases hres : modify_hotel hid nm rt st with ⟨flag, st'⟩
    rw [hres] at hok
    have hflag : flag = true := hok
    subst hflag
    rw [modify_hotel_eq] at hres
    split at hres
    · injection hres with h1 h2
      cases h1
    · split at hres
      · injection hres with h1 h2
        cases h1
      · next updated hmk =>
        injection hres with h1 h2
        have hwall : ∀ h ∈ (load_hotels st).map
            (fun h => if h.hotel_id == hid then updated else h), h.Wf := by
          intro h hm
          obtain ⟨h0, hm0, hrep⟩ := List.mem_map.mp hm
          by_cases hcase : (h0.hotel_id == hid) = true
          · rw [if_pos hcase] at hrep
            rw [← hrep]
            exact hotel_make_wf hmk
          · rw [if_neg hcase] at hrep
            rw [← hrep]
            exact load_hotels_wf st h0 hm0
        refine ⟨updated, ?_, ?_⟩
        · rw [← h2]
          rfl
        · rw [← h2]
          exact hotels_store_wf_write _ hwall
  · intro cid nm em st hok
    rcases hres : create_customer cid nm em st with ⟨flag, st'⟩
    rw [hres] at hok
    have hflag : flag = true := hok
    subst hflag
    rw [create_customer_eq] at hres
    split at hres
    · injection hres with h1 h2
      cases h1
    · split at hres
      · injection hres with h1 h2
        cases h1
      · next customer hmk =>
        injection hres with h1 h2
        have hwall : ∀ c ∈ load_customers st ++ [customer], c.Wf := by
          intro c hm
          rcases List.mem_append.mp hm with hm | hm
          · exact load_customers_wf st c hm
          · rw [List.mem_singleton.mp hm]
            exact customer_make_wf hmk
        refine ⟨customer, hmk, ?_, ?_⟩
        · rw [← h2]
          rfl
        · rw [← h2]
          exact customers_store_wf_write _ hwall
  · intro cid st hok
    rcases hres : delete_customer cid st with ⟨flag, st'⟩
    rw [hres] at hok
    have hflag : flag = true := hok
    subst hflag
    rw [delete_customer_eq] at hres
    split at hres
    · injection hres with h1 h2
      cases h1
    · injection hres with h1 h2
      have hwall : ∀ c ∈ (load_customers st).filter
          (fun c => c.customer_id != cid), c.Wf :=
        fun c hm => load_customers_wf st c (List.mem_of_mem_filter hm)
      refine ⟨?_, ?_⟩
      · rw [← h2]
        rfl
      · rw [← h2]
        exact customers_store_wf_write _ hwall
  · intro cid nm em st hok
    rcases hres : modify_customer cid nm em st with ⟨flag, st'⟩
    rw [hres] at hok
    have hflag : flag = true := hok
    subst hflag
    rw [modify_customer_eq] at hres
    split at hres
    · injection hres with h1 h2
      cases h1
    · split at hres
      · injection hres with h1 h2
        cases h1
      · next updated hmk =>
        injection hres with h1 h2
        have hwall : ∀ c ∈ (load_customers st).map
            (fun c => if c.customer_id == cid then updated else c), c.Wf := by
          intro c hm
          obtain ⟨c0, hm0, hrep⟩ := List.mem_map.mp hm
          by_cases hcase : (c0.customer_id == cid) = true
          · rw [if_pos hcase] at hrep
            rw [← hrep]
            exact customer_make_wf hmk
          · rw [if_neg hcase] at hrep
            rw [← hrep]
            exact load_customers_wf st c0 hm0
        refine ⟨updated, ?_, ?_⟩
        · rw [← h2]
          rfl
        · rw [← h2]
          exact customers_store_wf_write _ hwall
  · intro rid hid cid ci co n st hciv hcov hok
    obtain ⟨H, -, hmk, -, hst⟩ := create_reservation_ok_spec hok
    obtain ⟨hv1, hv2, hv3, hv4, hv5, -⟩ := reservation_make_eq_some.mp hmk
    have hwall : ∀ r ∈ load_reservations st ++
        [(⟨rid, hid, cid, ci, co, n⟩ : Reservation)], r.Wf := by
      intro r hm
      rcases List.mem_append.mp hm with hm | hm
      · exact load_reservations_wf st r hm
      · rw [List.mem_singleton.mp hm]
        exact ⟨hv1, hv2, hv3, hv4, hv5, hciv, hcov⟩
    rw [hst]
    exact ⟨rfl, reservations_store_wf_write _ hwall⟩
  · intro rid st hok
    rcases hres : cancel_reservation rid st with ⟨flag, st'⟩
    rw [hres] at hok
    have hflag : flag = true := hok
    subst hflag
    rw [cancel_reservation_eq] at hres
    split at hres
    · injection hres with h1 h2
      cases h1
    · injection hres with h1 h2
      have hwall : ∀ r ∈ (load_reservations st).filter
          (fun r => r.reservation_id != rid), r.Wf :=
        fun r hm => load_reservations_wf st r (List.mem_of_mem_filter hm)
      refine ⟨?_, ?_⟩
      · rw [← h2]
        rfl
      · rw [← h2]
        exact reservations_store_wf_write _ hwall

/-- Closed instance of C10: a successful cancel rewrites the reservations
store from the loaded validated set, filtered. -/
theorem C10_witness :
    (cancel_reservation "R1" stWithR1).2.reservations_file =
      write_json_list
        (((load_reservations stWithR1).filter
          (fun r => r.reservation_id != "R1")).map Reservation.to_dict) :=
  (C10_rewrite_validates.2.2.2.2.2.2.2 "R1" stWithR1 (by decide)).1

/-! ## Association-list lookup under permutation -/

theorem lookup_perm {l1 l2 : JObj} (hp : l1.Perm l2)
    (hn : (l1.map Prod.fst).Nodup) (k : String) :
    List.lookup k l1 = List.lookup k l2 := by
  induction hp with
  | nil => rfl
  | @cons x t1 t2 hperm ih =>
    obtain ⟨a, b⟩ := x
    have hn2 : (∀ v : JValue, (a, v) ∉ t1) ∧ (List.map Prod.fst t1).Nodup := by
      simpa using hn
    rw [List.lookup_cons, List.lookup_cons]
    cases hk : k == a
    · exact ih hn2.2
    · rfl
  | swap x y l =>
    obtain ⟨a, b⟩ := x
    obtain ⟨c, d⟩ := y
    have hne : c ≠ a := by
      have h0 : (c :: a :: l.map Prod.fst).Nodup := by simpa using hn
      have h1 := (List.nodup_cons.mp h0).1
      simp only [List.mem_cons, not_or] at h1
      exact h1.1
    simp only [List.lookup_cons]
    cases h1 : k == c <;> cases h2 : k == a
    · rfl
    · rfl
    · rfl
    · exact absurd ((beq_iff_eq.mp h1).symm.trans (beq_iff_eq.mp h2)) hne
  | trans h12 h23 ih1 ih2 =>
    rw [ih1 hn, ih2 (((h12.map Prod.fst).nodup_iff).mp hn)]

/-- C8: serialization round-trip: for a fields map of the correct shape —
the entity's exact key set in any order, values of the right types, dates as
`YYYY-MM-DD` strings — on which construction succeeds, serializing the
constructed entity returns the same fields map up to key ordering, for each
of Hotel, Customer, and Reservation. -/
theorem C8_round_trip :
    (∀ (fields : JObj) (hid nm : String) (rt : Int) (h : Hotel),
        fields.Perm [("hotel_id", .str hid), ("name", .str nm),
          ("rooms_total", .num rt)] →
        Hotel.from_dict fields = some h →
        (Hotel.to_dict h).Perm fields) ∧
    (∀ (fields : JObj) (cid nm em : String) (c : Customer),
        fields.Perm [("customer_id", .str cid), ("name", .str nm),
          ("email", .str em)] →
        Customer.from_dict fields = some c →
        (Customer.to_dict c).Perm fields) ∧
    (∀ (fields : JObj) (rid hid cid ciS coS : String) (n : Int) (r : Reservation),
        fields.Perm [("reservation_id", .str rid), ("hotel_id", .str hid),
          ("customer_id", .str cid), ("check_in", .str ciS),
          ("check_out", .str coS), ("rooms", .num n)] →
        Reservation.from_dict fields = some r →
        (Reservation.to_dict r).Perm fields) := by
  refine ⟨?_, ?_, ?_⟩
  · intro fields hid nm rt h hperm hfd
    have hkeys : ((["hotel_id", "name", "rooms_total"] : List String)).Nodup := by
      decide
    have hnd : (fields.map Prod.fst).Nodup :=
      ((hperm.map Prod.fst).nodup_iff).mpr hkeys
    have e1 : List.lookup "hotel_id" fields = some (.str hid) := by
      rw [lookup_perm hperm hnd]
      rfl
    have e2 : List.lookup "name" fields = some (.str nm) := by
      rw [lookup_perm hperm hnd]
      rfl
    have e3 : List.lookup "rooms_total" fields = some (.num rt) := by
      rw [lookup_perm hperm hnd]
      rfl
    unfold Hotel.from_dict at hfd
    rw [e1, e2, e3] at hfd
    have hmk : Hotel.make hid nm rt = some h := hfd
    obtain ⟨-, -, -, rfl⟩ := hotel_make_eq_some.mp hmk
    exact hperm.symm
  · intro fields cid nm em c hperm hfd
    have hkeys : ((["customer_id", "name", "email"] : List String)).Nodup := by
      decide
    have hnd : (fields.map Prod.fst).Nodup :=
      ((hperm.map Prod.fst).nodup_iff).mpr hkeys
    have e1 : List.lookup "customer_id" fields = some (.str cid) := by
      rw [lookup_perm hperm hnd]
      rfl
    have e2 : List.lookup "name" fields = some (.str nm) := by
      rw [lookup_perm hperm hnd]
      rfl
    have e3 : List.lookup "email" fields = some (.str em) := by
      rw [lookup_perm hperm hnd]
      rfl
    unfold Customer.from_dict at hfd
    rw [e1, e2, e3] at hfd
    have hmk : Customer.make cid nm em = some c := hfd
    obtain ⟨-, -, -, -, rfl⟩ := customer_make_eq_some.mp hmk
    exact hperm.symm
  · intro fields rid hid cid ciS coS n r hperm hfd
    have hkeys : ((["reservation_id", "hotel_id", "customer_id", "check_in",
        "check_out", "rooms"] : List String)).Nodup := by
      decide
    have hnd : (fields.map Prod.fst).Nodup :=
      ((hperm.map Prod.fst).nodup_iff).mpr hkeys
    have e1 : List.lookup "reservation_id" fields = some (.str rid) := by
      rw [lookup_perm hperm hnd]
      rfl
    have e2 : List.lookup "hotel_id" fields = some (.str hid) := by
      rw [lookup_perm hperm hnd]
      rfl
    have e3 : List.lookup "customer_id" fields = some (.str cid) := by
      rw [lookup_perm hperm hnd]
      rfl
    have e4 : List.lookup "check_in" fields = some (.str ciS) := by
      rw [lookup_perm hperm hnd]
      rfl
    have e5 : List.lookup "check_out" fields = some (.str coS) := by
      rw [lookup_perm hperm hnd]
      rfl
    have e6 : List.lookup "rooms" fields = some (.num n) := by
      rw [lookup_perm hperm hnd]
      rfl
    unfold Reservation.from_dict at hfd
    rw [e1, e2, e3, e4, e5, e6] at hfd
    have hfd2 : (match parse_iso_date ciS, parse_iso_date coS,
        (some n : Option Int) with
      | some check_in, some check_out, some rooms =>
        Reservation.make rid hid cid check_in check_out rooms
      | _, _, _ => none) = some r := hfd
    rcases hpci : parse_iso_date ciS with _ | ci
    · rw [hpci] at hfd2
      simp at hfd2
    · rcases hpco : parse_iso_date coS with _ | co
      · rw [hpci, hpco] at hfd2
        simp at hfd2
      · rw [hpci, hpco] at hfd2
        have hmk : Reservation.make rid hid cid ci co n = some r := hfd2
        obtain ⟨-, -, -, -, -, rfl⟩ := reservation_make_eq_some.mp hmk
        have hf1 : format_iso_date ci = ciS := parse_iso_date_format hpci
        have hf2 : format_iso_date co = coS := parse_iso_date_format hpco
        have hdict : Reservation.to_dict ⟨rid, hid, cid, ci, co, n⟩ =
            [("reservation_id", .str rid), ("hotel_id", .str hid),
             ("customer_id", .str cid), ("check_in", .str ciS),
             ("check_out", .str coS), ("rooms", .num n)] := by
          unfold Reservation.to_dict
          rw [hf1, hf2]
        rw [hdict]
        exact hperm.symm

/-- Closed instance of C8: a hotel fields map given in a permuted key order
round-trips to the same map up to ordering. -/
theorem C8_witness :
    (Hotel.to_dict ⟨"H1", "Plaza", 10⟩).Perm
      [("name", .str "Plaza"), ("hotel_id", .str "H1"),
       ("rooms_total", .num 10)] :=
  C8_round_trip.1
    ([("name", .str "Plaza"), ("hotel_id", .str "H1"),
      ("rooms_total", .num 10)] : JObj)
    "H1" "Plaza" 10 ⟨"H1", "Plaza", 10⟩
    (List.Perm.swap (("hotel_id", JValue.str "H1") : String × JValue)
      (("name", JValue.str "Plaza") : String × JValue)
      ([("rooms_total", JValue.num 10)] : JObj))
    (by decide)
